import Mathlib

/-!
Shallow embedding of the declarative secrets-engine reconciler in
internal/vault/secrets_engines.go of the bank-vaults repository, together
with proofs about its behaviour.  Remote vault operations are supplied by
an environment of oracles and every remote call the code would make is
recorded as an explicit effect, so that theorems can speak about which
calls happen, in which order and with which payloads.
-/

set_option maxRecDepth 4000

/-! ### String utilities mirroring the Go strings package -/

/-- Boolean test that the first list is an initial segment of the second
(used to implement substring search as in the strings package). -/
def isPrefOf : List Char → List Char → Bool
  | [], _ => true
  | _ :: _, [] => false
  | c :: cs, d :: ds => c == d && isPrefOf cs ds

/-- Boolean substring occurrence on character lists. -/
def hasSub (pat : List Char) : List Char → Bool
  | [] => isPrefOf pat []
  | c :: cs => isPrefOf pat (c :: cs) || hasSub pat cs

/-- Model of strings.Contains. -/
def containsSub (s pat : String) : Bool :=
  hasSub pat.data s.data

/-- Fuel-driven worker for replacing every occurrence of a pattern; the
fuel is set to the length of the subject string, which always suffices
because each step consumes at least one character. -/
def replAllGo (pat rep : List Char) : Nat → List Char → List Char
  | 0, s => s
  | fuel + 1, s =>
    match s with
    | [] => []
    | c :: cs =>
      if pat ≠ [] ∧ isPrefOf pat s then rep ++ replAllGo pat rep fuel (s.drop pat.length)
      else c :: replAllGo pat rep fuel cs

/-- Model of strings.ReplaceAll. -/
def strReplaceAll (s pat rep : String) : String :=
  String.mk (replAllGo pat.data rep.data s.data.length s.data)

/-- Model of strings.Trim with cutset "/" (both ends). -/
def trimSlashes (s : String) : String :=
  String.mk (((s.data.dropWhile (· == '/')).reverse.dropWhile (· == '/')).reverse)

/-- Model of strings.TrimRight with cutset "/". -/
def trimRightSlashes (s : String) : String :=
  String.mk ((s.data.reverse.dropWhile (· == '/')).reverse)

/-! ### Go dynamic values

Configuration items arrive as loosely typed key/value maps
(map[string]interface{} after decoding the YAML).  The value kinds the
reconciler inspects are booleans, strings, numbers, string slices
(allowed_domains) and nested maps; nested map values are modelled with
string entries, which is all the claims need. -/

inductive GoVal where
  /-- A nil interface value. -/
  | vnil
  | vbool (b : Bool)
  | vnat (n : Nat)
  | vstr (s : String)
  /-- A slice of strings (for example allowed_domains). -/
  | vstrList (l : List String)
  /-- A nested map with interface keys (map[interface{}]interface{}). -/
  | vimap (m : List (String × String))
  /-- A nested map with string keys (map[string]interface{}). -/
  | vsmap (m : List (String × String))

/-- A Go map[string]interface{} as an association list. -/
abbrev GoMap := List (String × GoVal)

def GoVal.isNil : GoVal → Bool
  | .vnil => true
  | _ => false

/-- First-match lookup in an association-list map. -/
def lookupKey : GoMap → String → Option GoVal
  | [], _ => none
  | (k, v) :: rest, key => if k == key then some v else lookupKey rest key

/-- Model of the Go builtin delete on a map key. -/
def eraseKey (m : GoMap) (k : String) : GoMap :=
  m.filter (fun kv => !(kv.1 == k))

/-- Model of Go map assignment m[k] = v (replace any old binding). -/
def insertKey (m : GoMap) (k : String) (v : GoVal) : GoMap :=
  eraseKey m k ++ [(k, v)]

/-- Model of cast.ToBool from the spf13 cast package, on the value kinds
that occur: nil is false, booleans are themselves, strings go through
ParseBool-like parsing, integers are compared with zero. -/
def castToBool : GoVal → Bool
  | .vnil => false
  | .vbool b => b
  | .vnat n => !(n == 0)
  | .vstr s =>
      s == "1" || s == "t" || s == "T" || s == "true" || s == "TRUE" || s == "True"
  | _ => false

/-- Model of cast.ToString on the value kinds that occur; unconvertible
values yield the zero string exactly as cast.ToString does. -/
def castToString : GoVal → String
  | .vstr s => s
  | .vnat n => toString n
  | .vbool b => if b then "true" else "false"
  | _ => ""

/-- Rendering used when a value is interpolated into a path. -/
def goFmt : GoVal → String
  | .vstr s => s
  | .vnat n => toString n
  | .vbool b => if b then "true" else "false"
  | _ => ""

/-! ### Errors

Each error construction site of the source gets its own constructor;
errors.Wrap and errors.Wrapf become the wrap constructor, errors coming
back from the remote server are kept as their message strings. -/

inductive VErr where
  /-- An error returned by the remote server or client library. -/
  | external (msg : String)
  /-- errors.Wrap / errors.Wrapf with a context message. -/
  | wrap (ctx : String) (cause : VErr)
  /-- errors.Errorf at the missing-name check (line 298). -/
  | nameMissing (path opt : String)
  /-- errors.Errorf for an unrotatable secret engine type (line 122). -/
  | rotateUnsupported (ty : String)
  /-- An error produced by one of the cast helpers. -/
  | castErr (what : String)

/-- Model of isOverwriteProhibitedError: the check is applied to the raw
error coming back from the write, before any wrapping. -/
def isOverwriteProhibitedError (errMsg : String) : Bool :=
  containsSub errMsg "delete them before reconfiguring"

/-! ### Configuration structures -/

/-- One element of a configOption sequence: in Go an interface value that
is either a string-keyed map or something that fails the map casts. -/
inductive GoItem where
  | imap (m : GoMap)
  | inonmap

/-- The value stored under one configOption key of a Configuration: in Go
an interface value that either casts to a slice or fails cast.ToSliceE. -/
inductive ConfigData where
  | clist (items : List GoItem)
  | cnonlist

/-- Model of cast.ToSliceE applied to a configOption value. -/
def castToSliceE : ConfigData → Except String (List GoItem)
  | .clist items => .ok items
  | .cnonlist => .error "unable to cast to slice"

/-- The secretEngine structure decoded from the external configuration
(field Local is renamed isLocal because local is a Lean keyword). -/
structure secretEngine where
  path : String
  ty : String
  description : String
  configuration : List (String × ConfigData)
  config : GoMap
  options : List (String × String)
  pluginName : String
  isLocal : Bool
  sealWrap : Bool

/-- The mount-level settings (api.MountConfigInput) that are decoded from
the config map of a secret engine; the fields the claims are about are the
lease TTLs and the options map. -/
structure MountConfigInput where
  defaultLeaseTTL : String
  maxLeaseTTL : String
  options : List (String × String)

/-- Decode of the config map into a MountConfigInput via mapstructure:
present fields must have the right kind, absent fields get zero values. -/
def decodeMountConfigInput (cfg : GoMap) : Except String MountConfigInput := do
  let dflt ← match lookupKey cfg "default_lease_ttl" with
    | none => pure ""
    | some (.vstr s) => pure s
    | some _ => .error "cannot decode default_lease_ttl"
  let maxl ← match lookupKey cfg "max_lease_ttl" with
    | none => pure ""
    | some (.vstr s) => pure s
    | some _ => .error "cannot decode max_lease_ttl"
  let opts ← match lookupKey cfg "options" with
    | none => pure []
    | some (.vsmap m) => pure m
    | some (.vimap m) => pure m
    | some _ => .error "cannot decode options"
  pure ⟨dflt, maxl, opts⟩

/-- Model of (se *secretEngine).getMountConfigInput (lines 88-100): decode
the config map, then overwrite the Options field inside it with the
options declared outside, for backward compatibility. -/
def getMountConfigInput (se : secretEngine) : Except VErr MountConfigInput :=
  match decodeMountConfigInput se.config with
  | .error e => .error (.wrap "error parsing config for secret engine" (.castErr e))
  | .ok mci => .ok ⟨mci.defaultLeaseTTL, mci.maxLeaseTTL, se.options⟩

/-- The api.MountInput payload sent when a mount is created. -/
structure MountInput where
  ty : String
  description : String
  pluginName : String
  config : MountConfigInput
  options : List (String × String)
  isLocal : Bool
  sealWrap : Bool

/-- The payload of a versioned save_to write, vaultpkg.NewData(cas, data).
Modelled from the spec: NewData lives in the external vault-sdk package;
the spec says the result data is persisted as a new versioned secret, so
the payload carries the data map and the cas option and its top-level
transmitted keys are the fixed pair data and options. -/
structure KVData where
  data : GoMap
  cas : Nat

/-! ### Effects and the environment of remote oracles -/

/-- One remote call or log line the reconciler performs, in order. -/
inductive Effect where
  | listAuthCall
  | listMountsCall (idx : Nat)
  | mountCall (path : String) (input : MountInput)
  | tuneCall (path : String) (cfg : MountConfigInput)
  /-- The wait duration printed in the retry log line. -/
  | logWait (ms : Nat)
  /-- time.Sleep between retries, in milliseconds. -/
  | sleep (ms : Nat)
  /-- The raw GET status probe of the pki CA (root/generate options). -/
  | probeCA (path : String)
  /-- Logical().Read existence probe at a config path. -/
  | probeRead (path : String)
  /-- writeWithWarningCheck of a sub-configuration payload. -/
  | writeConfig (path : String) (payload : GoMap)
  /-- writeWithWarningCheck of a NewData payload at a save_to path. -/
  | writeSaveTo (path : String) (payload : KVData)
  /-- writeWithWarningCheck of a nil payload at a rotation endpoint. -/
  | writeRotate (path : String)
  /-- The skip log of line 365, with the config path and the reason. -/
  | skipLog (path reason : String)
  /-- The already-rotated log of line 137. -/
  | rotateSkipLog (path : String)
  | unmountCall (path : String)

/-- Environment of remote results.  Modelled from the spec: the vault
client, writeWithWarningCheck and the raw status-check primitive are
outside this source file, so each remote operation of spec section 6 is an
oracle; ListMounts is indexed by call count and the mount and tune
operations by retry attempt, because consecutive calls may differ. -/
structure Env where
  listAuth : Except String (List (String × String))
  listMounts : Nat → Except String (List String)
  mountRes : String → Nat → Except String Unit
  tuneRes : String → Nat → Except String Unit
  readRes : String → Except String (Option (Option GoMap))
  caStatus : String → Except String Nat
  writeRes : String → Except String GoMap
  unmountRes : String → Except String Unit

/-- Mutable per-pass state: the shared backoff attempt counter, the
ListMounts call counter and the rotation cache. -/
structure PassState where
  attempt : Nat
  lmIdx : Nat
  cache : List String

/-! ### The reconciler, function by function -/

/-- Model of replaceAccessor (lines 66-74): scan the accessor map in
iteration order; the first entry whose trimmed path makes the token occur
in the input has every occurrence of its token replaced, and the function
returns immediately; with no matching entry the input is returned. -/
def replaceAccessor (input : String) (mounts : List (String × String)) : String :=
  match mounts with
  | [] => input
  | (k, v) :: rest =>
    if containsSub input ("__accessor__" ++ trimRightSlashes k) then
      strReplaceAll input ("__accessor__" ++ trimRightSlashes k) v
    else replaceAccessor input rest

/-- Model of initSecretsEnginesConfig (lines 76-86): default an empty path
to the engine type, then trim separators. -/
def initSecretsEnginesConfig (configs : List secretEngine) : List secretEngine :=
  configs.map fun c =>
    let p := if c.path == "" then c.ty else c.path
    { c with path := trimSlashes p }

/-- Model of (v *vault).mountExists (lines 102-110). -/
def mountExistsM (env : Env) (lmIdx : Nat) (path : String) :
    List Effect × Except VErr Bool × Nat :=
  match env.listMounts lmIdx with
  | .error e =>
    ([.listMountsCall lmIdx], .error (.wrap "error reading mounts from vault" (.external e)), lmIdx + 1)
  | .ok mounts =>
    ([.listMountsCall lmIdx], .ok (mounts.contains (path ++ "/")), lmIdx + 1)

/-- The rotation endpoint computed from the engine type (lines 113-123). -/
def rotatePathFor (ty path name : String) : Option String :=
  match ty with
  | "aws" => some (path ++ "/config/rotate-root")
  | "database" => some (path ++ "/rotate-root/" ++ name)
  | "gcp" => some (path ++ "/" ++ name ++ "/rotate")
  | _ => none

/-- Model of rotateSecretEngineCredentials (lines 112-141).  The rotation
cache is consulted first; on a miss the rotation write is performed and
the endpoint is recorded in the cache only when the write succeeded. -/
def rotateSecretEngineCredentials (env : Env) (cache : List String)
    (ty path name configPath : String) :
    List Effect × Except VErr Unit × List String :=
  match rotatePathFor ty path name with
  | none => ([], .error (.rotateUnsupported ty), cache)
  | some rotatePath =>
    if cache.contains rotatePath then
      ([.rotateSkipLog rotatePath], .ok (), cache)
    else
      match env.writeRes rotatePath with
      | .error e =>
        ([.writeRotate rotatePath],
         .error (.wrap ("error rotating credentials for " ++ configPath ++ " config in vault") (.external e)),
         cache)
      | .ok _ => ([.writeRotate rotatePath], .ok (), rotatePath :: cache)

/-- Model of getExistingSecretsEngines (lines 147-160): list the mounts
and collect the paths trimmed of separators (a map in Go, so duplicates
collapse). -/
def getExistingSecretsEngines (env : Env) (lmIdx : Nat) :
    List Effect × Except VErr (List String) × Nat :=
  match env.listMounts lmIdx with
  | .error e =>
    ([.listMountsCall lmIdx], .error (.wrap "unable to list existing secrets engines" (.external e)), lmIdx + 1)
  | .ok ks =>
    ([.listMountsCall lmIdx], .ok ((ks.map trimSlashes).dedup), lmIdx + 1)

/-- Model of getUnmanagedSecretsEngines (lines 164-178).  The error of the
listing is discarded with a blank identifier in the source, so a failed
listing silently yields the empty set; then the reserved system paths and
every managed path are deleted. -/
def getUnmanagedSecretsEngines (env : Env) (lmIdx : Nat)
    (managedSecretsEngines : List secretEngine) :
    List Effect × List String × Nat :=
  let r := getExistingSecretsEngines env lmIdx
  let existing := match r.2.1 with
    | .error _ => []
    | .ok ks => ks
  let woReserved := existing.filter fun p =>
    !(p == "sys") && !(p == "identity") && !(p == "cubbyhole")
  let unmanaged := woReserved.filter fun p =>
    !(managedSecretsEngines.any fun se => se.path == p)
  (r.1, unmanaged, r.2.2)

/-- The secret engine types whose config option needs no name segment
(lines 39-46). -/
def secretEnginesWithoutNameConfig : List String :=
  ["ad", "alicloud", "azure", "gcp", "gcpkms", "kv"]

/-- Model of configNeedsNoName (lines 180-195). -/
def configNeedsNoName (secretEngineType configOption : String) : Bool :=
  if configOption == "config" then
    secretEnginesWithoutNameConfig.contains secretEngineType
  else if secretEngineType == "aws" && configOption == "config/root" then true
  else if secretEngineType == "transit" && configOption == "cache-config" then true
  else false

/-! ### Backoff and the mount / tune retry loops

The backoff object of line 198 has Min 500ms, Max 60s, Factor 2 and no
jitter; Duration() returns min(500ms * 2^attempt, 60s) and increments the
attempt counter, Reset() sets the counter back to zero.  All durations are
modelled in milliseconds.  Both loops terminate within eight iterations
because the computed wait reaches the 60s ceiling, so they are written
with a gas parameter that the callers set to 8; the gas-exhausted branch
is unreachable from a fresh backoff state. -/

/-- The wait the backoff computes for a given attempt counter value. -/
def backoffForAttempt (k : Nat) : Nat :=
  min (500 * 2 ^ k) 60000

/-- Model of the Mount retry loop (lines 230-245).  Arguments after the
payload: gas, the retry attempt index i fed to the oracle, and the shared
backoff attempt counter k.  Returns the effects, the outcome and the
backoff counter left behind (zero after Reset on success). -/
def mountLoop (env : Env) (path : String) (mi : MountInput) :
    Nat → Nat → Nat → List Effect × Except VErr Unit × Nat
  | 0, _, k => ([], .error (.external "mount retry loop out of gas"), k)
  | gas + 1, i, k =>
    match env.mountRes path i with
    | .ok _ => ([.mountCall path mi], .ok (), 0)
    | .error e =>
      let d := backoffForAttempt k
      if d == 60000 then
        ([.mountCall path mi, .logWait d],
         .error (.wrap ("error mounting " ++ path ++ " into vault after several attempts") (.external e)),
         k + 1)
      else
        let rest := mountLoop env path mi gas (i + 1) (k + 1)
        ([.mountCall path mi, .logWait d, .sleep d] ++ rest.1, rest.2.1, rest.2.2)

/-- Model of the TuneMount retry loop (lines 249-263).  On each failing
iteration the source calls b.Duration() three separate times: once inside
the log line, once in the ceiling comparison and once as the sleep
argument, so the attempt counter advances by three per iteration; the
logged wait and the slept wait therefore differ. -/
def tuneLoop (env : Env) (path : String) (mci : MountConfigInput) :
    Nat → Nat → Nat → List Effect × Except VErr Unit × Nat
  | 0, _, k => ([], .error (.external "tune retry loop out of gas"), k)
  | gas + 1, i, k =>
    match env.tuneRes path i with
    | .ok _ => ([.tuneCall path mci], .ok (), 0)
    | .error e =>
      let d1 := backoffForAttempt k
      let d2 := backoffForAttempt (k + 1)
      if d2 == 60000 then
        ([.tuneCall path mci, .logWait d1],
         .error (.wrap ("error mounting " ++ path ++ " into vault after several attempts") (.external e)),
         k + 2)
      else
        let d3 := backoffForAttempt (k + 2)
        let rest := tuneLoop env path mci gas (i + 1) (k + 3)
        ([.tuneCall path mci, .logWait d1, .sleep d3] ++ rest.1, rest.2.1, rest.2.2)

/-- The create-or-tune step of addManagedSecretsEngines (lines 216-264):
an absent mount is created with the declared settings, with the options
passed at the top level of the mount input; an existing mount is tuned
with the full decoded MountConfigInput. -/
def ensureMount (env : Env) (se : secretEngine) (mci : MountConfigInput)
    (mountExists : Bool) (attempt : Nat) :
    List Effect × Except VErr Unit × Nat :=
  if !mountExists then
    let mi : MountInput :=
      ⟨se.ty, se.description, se.pluginName, mci, mci.options, se.isLocal, se.sealWrap⟩
    mountLoop env se.path mi 8 0 attempt
  else
    tuneLoop env se.path mci 8 0 attempt

/-! ### Per-item sub-configuration processing (lines 267-406) -/

/-- Model of the mapstructure decode into secretEngineTemplatedConfig and
the fallback cast (lines 272-294).  If the item is a map whose
allowed_domains value is absent or a string slice, the decode succeeds:
every domain goes through replaceAccessor and the allowed_domains key is
re-inserted (an absent key is re-inserted as an empty slice, exactly as
assigning the nil AllowedDomains slice does).  Otherwise the fallback
cast.ToStringMapE is used, which fails on a non-map item. -/
def decodeTemplated (mounts : List (String × String)) : GoItem → Except VErr GoMap
  | .imap m =>
    match lookupKey m "allowed_domains" with
    | none =>
      .ok (insertKey m "allowed_domains" (.vstrList []))
    | some (.vstrList domains) =>
      .ok (insertKey m "allowed_domains"
            (.vstrList (domains.map (fun d => replaceAccessor d mounts))))
    | some _ => .ok m
  | .inonmap =>
    .error (.wrap "error converting sub config data for secret engine"
      (.castErr "unable to cast to string map"))

/-- The nested-map normalization of lines 301-308: values that are
interface-keyed maps are replaced by string-keyed maps. -/
def normalizeVal : GoVal → GoVal
  | .vimap m => .vsmap m
  | v => v

def normalizeMap (m : GoMap) : GoMap :=
  m.map fun kv => (kv.1, normalizeVal kv.2)

/-- The config path of lines 310-315. -/
def configPathOf (mountPath opt : String) (name : GoVal) : String :=
  if !name.isNil then mountPath ++ "/" ++ opt ++ "/" ++ goFmt name
  else mountPath ++ "/" ++ opt

/-- The control-flag stripping of lines 317-329, in source order: read and
delete create_only, then rotate, then save_to.  Returns the remaining
payload and the three flags. -/
def stripControl (m : GoMap) : GoMap × Bool × Bool × String :=
  let createOnly := castToBool ((lookupKey m "create_only").getD .vnil)
  let m1 := eraseKey m "create_only"
  let rotate := castToBool ((lookupKey m1 "rotate").getD .vnil)
  let m2 := eraseKey m1 "rotate"
  let saveTo := castToString ((lookupKey m2 "save_to").getD .vnil)
  let m3 := eraseKey m2 "save_to"
  (m3, createOnly, rotate, saveTo)

/-- The existence probe of lines 333-358: a raw CA status check for the
root/generate option, a Logical read elsewhere; populated means a non-nil
secret with non-nil data. -/
def probeSecretExists (env : Env) (sePath opt configPath : String) :
    List Effect × Except VErr Bool :=
  if opt == "root/generate" then
    match env.caStatus sePath with
    | .error e => ([.probeCA sePath], .error (.wrap "failed to check pki CA" (.external e)))
    | .ok code => ([.probeCA sePath], .ok (code == 200))
  else
    match env.readRes configPath with
    | .error e =>
      ([.probeRead configPath],
       .error (.wrap ("error reading configPath " ++ configPath) (.external e)))
    | .ok secret =>
      ([.probeRead configPath],
       .ok (match secret with
            | some (some _) => true
            | _ => false))

/-- Outcome of the write step of one item. -/
inductive WriteOutcome where
  | proceeded
  /-- The overwrite-prohibited conflict: logged, the item is skipped with
  a continue, the pass goes on. -/
  | skippedConflict
  | failed (e : VErr)

/-- The create-only / rotate existence-check step (lines 331-368): the
probe only runs when one of the flags is set and the mount pre-existed;
a populated probe logs the skip with its reason and clears shouldUpdate. -/
def probePhase (env : Env) (createOnly rotate mountExists : Bool)
    (sePath opt configPath : String) : List Effect × Except VErr Bool :=
  if (createOnly || rotate) && mountExists then
    match (probeSecretExists env sePath opt configPath).2 with
    | .error e => ((probeSecretExists env sePath opt configPath).1, .error e)
    | .ok secretExists =>
      if secretExists then
        ((probeSecretExists env sePath opt configPath).1
          ++ [.skipLog configPath (if createOnly then "create_only" else "rotate")],
         .ok false)
      else ((probeSecretExists env sePath opt configPath).1, .ok true)
  else ([], .ok true)

/-- The write step (lines 370-387): write the stripped payload to the
config path, treating the overwrite-prohibited conflict as a logged
continue; on success and a non-empty save_to, persist the write result
wrapped as a versioned NewData payload. -/
def writePhase (env : Env) (shouldUpdate : Bool) (configPath saveTo : String)
    (payload : GoMap) : List Effect × WriteOutcome :=
  if shouldUpdate then
    match env.writeRes configPath with
    | .error e =>
      if isOverwriteProhibitedError e then
        ([.writeConfig configPath payload], .skippedConflict)
      else
        ([.writeConfig configPath payload],
         .failed (.wrap ("error configuring " ++ configPath ++ " config in vault") (.external e)))
    | .ok secData =>
      if saveTo != "" then
        match env.writeRes saveTo with
        | .error e2 =>
          ([.writeConfig configPath payload, .writeSaveTo saveTo ⟨secData, 0⟩],
           .failed (.wrap ("error saving secret in vault to " ++ saveTo) (.external e2)))
        | .ok _ =>
          ([.writeConfig configPath payload, .writeSaveTo saveTo ⟨secData, 0⟩],
           .proceeded)
      else ([.writeConfig configPath payload], .proceeded)
  else ([], .proceeded)

/-- The name.(string) assertion of lines 397-400: the empty string for a
nil name (non-string names would panic in Go and are not modelled). -/
def nameStrOf : GoVal → String
  | .vstr s => s
  | _ => ""

/-- The conditional credential rotation of lines 389-405: only for
rotate items on pre-existing mounts of the database/config and
aws/config-root combinations. -/
def rotatePhase (env : Env) (rotate mountExists : Bool)
    (seType sePath opt : String) (name : GoVal) (configPath : String)
    (cache : List String) : List Effect × Except VErr Unit × List String :=
  if rotate && mountExists &&
      ((seType == "database" && opt == "config") ||
       (seType == "aws" && opt == "config/root")) then
    match (rotateSecretEngineCredentials env cache seType sePath
        (nameStrOf name) configPath).2.1 with
    | .error e =>
      ((rotateSecretEngineCredentials env cache seType sePath
          (nameStrOf name) configPath).1,
       .error (.wrap ("error rotating credentials for " ++ configPath ++ " config in vault") e),
       (rotateSecretEngineCredentials env cache seType sePath
          (nameStrOf name) configPath).2.2)
    | .ok _ =>
      ((rotateSecretEngineCredentials env cache seType sePath
          (nameStrOf name) configPath).1,
       .ok (),
       (rotateSecretEngineCredentials env cache seType sePath
          (nameStrOf name) configPath).2.2)
  else ([], .ok (), cache)

/-- Model of one iteration of the inner item loop of
addManagedSecretsEngines (lines 272-405): decode, name check,
normalization, path computation, flag stripping, existence probe, write,
save_to write and the conditional credential rotation. -/
def processItem (env : Env) (mounts : List (String × String))
    (seType sePath : String) (mountExists : Bool) (opt : String)
    (raw : GoItem) (cache : List String) :
    List Effect × Except VErr Unit × List String :=
  match decodeTemplated mounts raw with
  | .error e => ([], .error e, cache)
  | .ok subConfigData =>
    let nameOpt := lookupKey subConfigData "name"
    if nameOpt.isNone && !configNeedsNoName seType opt then
      ([], .error (.nameMissing sePath opt), cache)
    else
      let name := nameOpt.getD .vnil
      let normalized := normalizeMap subConfigData
      let configPath := configPathOf sePath opt name
      let stripped := stripControl normalized
      let ps := probePhase env stripped.2.1 stripped.2.2.1 mountExists sePath opt configPath
      match ps.2 with
      | .error e => (ps.1, .error e, cache)
      | .ok shouldUpdate =>
        let ws := writePhase env shouldUpdate configPath stripped.2.2.2 stripped.1
        match ws.2 with
        | .failed e => (ps.1 ++ ws.1, .error e, cache)
        | .skippedConflict => (ps.1 ++ ws.1, .ok (), cache)
        | .proceeded =>
          let rp := rotatePhase env stripped.2.2.1 mountExists seType sePath opt name configPath cache
          (ps.1 ++ ws.1 ++ rp.1, rp.2.1, rp.2.2)

/-- Sequential processing of the items of one configOption, aborting on
the first error and threading the rotation cache. -/
def processItems (env : Env) (mounts : List (String × String))
    (seType sePath : String) (mountExists : Bool) (opt : String) :
    List GoItem → List String → List Effect × Except VErr Unit × List String
  | [], cache => ([], .ok (), cache)
  | it :: rest, cache =>
    let r := processItem env mounts seType sePath mountExists opt it cache
    match r.2.1 with
    | .error e => (r.1, .error e, r.2.2)
    | .ok _ =>
      let rr := processItems env mounts seType sePath mountExists opt rest r.2.2
      (r.1 ++ rr.1, rr.2.1, rr.2.2)

/-- The configOption loop of lines 267-271: cast each configData to a
slice and process its items. -/
def processOptions (env : Env) (mounts : List (String × String))
    (seType sePath : String) (mountExists : Bool) :
    List (String × ConfigData) → List String →
    List Effect × Except VErr Unit × List String
  | [], cache => ([], .ok (), cache)
  | (opt, cdata) :: rest, cache =>
    match castToSliceE cdata with
    | .error e =>
      ([], .error (.wrap "error converting config data for secret engine" (.castErr e)), cache)
    | .ok items =>
      let r := processItems env mounts seType sePath mountExists opt items cache
      match r.2.1 with
      | .error e => (r.1, .error e, r.2.2)
      | .ok _ =>
        let rr := processOptions env mounts seType sePath mountExists rest r.2.2
        (r.1 ++ rr.1, rr.2.1, rr.2.2)

/-- Processing of one managed secret engine (lines 205-407): existence
check, create or tune, then the sub-configuration. -/
def processEngine (env : Env) (mounts : List (String × String))
    (se : secretEngine) (st : PassState) :
    List Effect × Except VErr Unit × PassState :=
  let me := mountExistsM env st.lmIdx se.path
  match me.2.1 with
  | .error e => (me.1, .error e, ⟨st.attempt, me.2.2, st.cache⟩)
  | .ok mExists =>
    match getMountConfigInput se with
    | .error e => (me.1, .error e, ⟨st.attempt, me.2.2, st.cache⟩)
    | .ok mci =>
      let em := ensureMount env se mci mExists st.attempt
      match em.2.1 with
      | .error e => (me.1 ++ em.1, .error e, ⟨em.2.2, me.2.2, st.cache⟩)
      | .ok _ =>
        let po := processOptions env mounts se.ty se.path mExists se.configuration st.cache
        (me.1 ++ em.1 ++ po.1, po.2.1, ⟨em.2.2, me.2.2, po.2.2⟩)

/-- Model of addManagedSecretsEngines (lines 197-411): process the
managed engines in order, aborting on the first error; the backoff
object, the ListMounts call counter and the rotation cache are shared
across the whole call. -/
def addManagedSecretsEngines (env : Env) (mounts : List (String × String)) :
    List secretEngine → PassState → List Effect × Except VErr Unit × PassState
  | [], st => ([], .ok (), st)
  | se :: rest, st =>
    let r := processEngine env mounts se st
    match r.2.1 with
    | .error e => (r.1, .error e, r.2.2)
    | .ok _ =>
      let rr := addManagedSecretsEngines env mounts rest r.2.2
      (r.1 ++ rr.1, rr.2.1, rr.2.2)

/-- The unmount loop inside removeUnmanagedSecretsEngines (lines
419-424), aborting on the first failing unmount. -/
def unmountAll (env : Env) : List String → List Effect × Except VErr Unit
  | [] => ([], .ok ())
  | p :: rest =>
    match env.unmountRes p with
    | .error e =>
      ([.unmountCall p],
       .error (.wrap ("error unmounting " ++ p ++ " secret engine from vault") (.external e)))
    | .ok _ =>
      let r := unmountAll env rest
      (.unmountCall p :: r.1, r.2)

/-- Model of removeUnmanagedSecretsEngines (lines 413-427): a no-op when
the unmanaged set is empty, purging is disabled or the secrets category
is excluded; otherwise every unmanaged path is unmounted. -/
def removeUnmanagedSecretsEngines (env : Env)
    (purgeEnabled purgeExcludeSecrets : Bool) (unmanaged : List String) :
    List Effect × Except VErr Unit :=
  if unmanaged.isEmpty || !purgeEnabled || purgeExcludeSecrets then ([], .ok ())
  else unmountAll env unmanaged

/-- The external configuration fields the pass reads
(v.externalConfig.Secrets and the purge settings). -/
structure ExternalConfig where
  secrets : List secretEngine
  purgeEnabled : Bool
  purgeExcludeSecrets : Bool

/-- Model of configureSecretsEngines (lines 429-446): list the auth
methods for the accessor map, normalize the desired engines, compute the
unmanaged set, add the managed engines and finally prune. -/
def configureSecretsEngines (env : Env) (cfg : ExternalConfig) :
    List Effect × Except VErr Unit :=
  match env.listAuth with
  | .error e =>
    ([.listAuthCall],
     .error (.wrap "error while getting list of auth engines for secret engine configuration" (.external e)))
  | .ok auths =>
    let managed := initSecretsEnginesConfig cfg.secrets
    let gu := getUnmanagedSecretsEngines env 0 managed
    let am := addManagedSecretsEngines env auths managed ⟨0, gu.2.2, []⟩
    match am.2.1 with
    | .error e =>
      ([.listAuthCall] ++ gu.1 ++ am.1, .error (.wrap "error adding secrets engines" e))
    | .ok _ =>
      let ru := removeUnmanagedSecretsEngines env cfg.purgeEnabled cfg.purgeExcludeSecrets gu.2.1
      match ru.2 with
      | .error e =>
        ([.listAuthCall] ++ gu.1 ++ am.1 ++ ru.1, .error (.wrap "error removing secrets engines" e))
      | .ok _ => ([.listAuthCall] ++ gu.1 ++ am.1 ++ ru.1, .ok ())

/-! ### Trace observation helpers -/

def sleepsOf (t : List Effect) : List Nat :=
  t.filterMap fun e => match e with
    | .sleep d => some d
    | _ => none

def logWaitsOf (t : List Effect) : List Nat :=
  t.filterMap fun e => match e with
    | .logWait d => some d
    | _ => none

def mountPathsOf (t : List Effect) : List String :=
  t.filterMap fun e => match e with
    | .mountCall p _ => some p
    | _ => none

def tunePathsOf (t : List Effect) : List String :=
  t.filterMap fun e => match e with
    | .tuneCall p _ => some p
    | _ => none

def tuneOptionsOf (t : List Effect) : List (List (String × String)) :=
  t.filterMap fun e => match e with
    | .tuneCall _ c => some c.options
    | _ => none

def writeConfigPathsOf (t : List Effect) : List String :=
  t.filterMap fun e => match e with
    | .writeConfig p _ => some p
    | _ => none

def writeSaveToPathsOf (t : List Effect) : List String :=
  t.filterMap fun e => match e with
    | .writeSaveTo p _ => some p
    | _ => none

def rotateWritesOf (t : List Effect) : List String :=
  t.filterMap fun e => match e with
    | .writeRotate p => some p
    | _ => none

def probePathsOf (t : List Effect) : List String :=
  t.filterMap fun e => match e with
    | .probeCA p => some p
    | .probeRead p => some p
    | _ => none

def skipLogsOf (t : List Effect) : List (String × String) :=
  t.filterMap fun e => match e with
    | .skipLog p r => some (p, r)
    | _ => none

def unmountsOf (t : List Effect) : List String :=
  t.filterMap fun e => match e with
    | .unmountCall p => some p
    | _ => none

/-- The remote calls that mutate server state. -/
def isMutation : Effect → Bool
  | .mountCall _ _ => true
  | .tuneCall _ _ => true
  | .writeConfig _ _ => true
  | .writeSaveTo _ _ => true
  | .writeRotate _ => true
  | .unmountCall _ => true
  | _ => false

def mutationsOf (t : List Effect) : List Effect :=
  t.filter isMutation

/-- Boolean view of whether an outcome is an error. -/
def resultIsError : Except VErr Unit → Bool
  | .error _ => true
  | .ok _ => false

/-! ### Concrete inputs used by witnesses and counterexamples -/

/-- An environment where every remote call succeeds and every existence
probe finds the target populated. -/
def envAllOk : Env :=
  ⟨.ok [], fun _ => .ok ["kv/"], fun _ _ => .ok (), fun _ _ => .ok (),
   fun _ => .ok (some (some [("k", .vstr "v")])), fun _ => .ok 200,
   fun _ => .ok [("out", .vstr "o")], fun _ => .ok ()⟩

/-- An environment where every remote call succeeds and every existence
probe finds nothing. -/
def envNotFound : Env :=
  ⟨.ok [], fun _ => .ok ["kv/"], fun _ _ => .ok (), fun _ _ => .ok (),
   fun _ => .ok none, fun _ => .ok 404,
   fun _ => .ok [("out", .vstr "o")], fun _ => .ok ()⟩

/-- An environment where the mount and tune operations fail on every
attempt. -/
def envOpsFail : Env :=
  ⟨.ok [], fun _ => .ok ["kv/"], fun _ _ => .error "boom", fun _ _ => .error "boom",
   fun _ => .ok none, fun _ => .ok 404, fun _ => .ok [], fun _ => .ok ()⟩

/-- An environment where the mount operation fails on the first two
attempts and then succeeds. -/
def envFailTwice : Env :=
  ⟨.ok [], fun _ => .ok [], fun _ i => if i < 2 then .error "boom" else .ok (),
   fun _ _ => .ok (), fun _ => .ok none, fun _ => .ok 404,
   fun _ => .ok [], fun _ => .ok ()⟩

/-- An environment whose first ListMounts call fails while every later
remote call succeeds. -/
def envListFailOnce : Env :=
  ⟨.ok [], fun i => if i == 0 then .error "listing failed" else .ok ["kv/"],
   fun _ _ => .ok (), fun _ _ => .ok (), fun _ => .ok none, fun _ => .ok 404,
   fun _ => .ok [], fun _ => .ok ()⟩

/-- An environment whose second ListMounts call (the first
mount-existence check of a pass) fails. -/
def envListFailSecond : Env :=
  ⟨.ok [], fun i => if i == 1 then .error "boom2" else .ok [],
   fun _ _ => .ok (), fun _ _ => .ok (), fun _ => .ok none, fun _ => .ok 404,
   fun _ => .ok [], fun _ => .ok ()⟩

/-- An environment whose auth listing fails. -/
def envAuthFail : Env :=
  ⟨.error "auth listing failed", fun _ => .ok [], fun _ _ => .ok (), fun _ _ => .ok (),
   fun _ => .ok none, fun _ => .ok 404, fun _ => .ok [], fun _ => .ok ()⟩

/-- A kv secret engine with declared mount options and no
sub-configuration. -/
def demoKvEngine : secretEngine :=
  ⟨"kv", "kv", "", [], [], [("version", "2")], "", false, false⟩

/-- The external configuration used in the pruning counterexample: one
managed engine, purge enabled, secrets not excluded. -/
def demoCfg : ExternalConfig := ⟨[demoKvEngine], true, false⟩

/-- The mount input the demo engine is created with. -/
def demoMI : MountInput :=
  ⟨"kv", "", "", ⟨"", "", [("version", "2")]⟩, [("version", "2")], false, false⟩

/-- An environment for the pruning scenario: the server reports one
managed mount, the three reserved paths and one stale mount. -/
def envPrune : Env :=
  ⟨.ok [], fun _ => .ok ["kv/", "sys/", "identity/", "cubbyhole/", "old-kv/"],
   fun _ _ => .ok (), fun _ _ => .ok (), fun _ => .ok none, fun _ => .ok 404,
   fun _ => .ok [], fun _ => .ok ()⟩

/-- The mount-config payload used in the retry-loop evaluations. -/
def demoMCI : MountConfigInput := ⟨"", "", [("version", "2")]⟩

/-- A configuration item carrying create_only and a name. -/
def demoItemCreateOnly : GoItem :=
  .imap [("name", .vstr "role1"), ("create_only", .vbool true), ("x", .vstr "1")]

/-- A configuration item whose name key holds an explicit nil. -/
def demoItemNilName : GoItem :=
  .imap [("name", .vnil), ("x", .vstr "1")]

/-- A configuration item with no name key at all. -/
def demoItemNoName : GoItem :=
  .imap [("x", .vstr "1")]

/-- A configuration item carrying all three control flags and a save_to
target. -/
def demoItemFull : GoItem :=
  .imap [("name", .vstr "r"), ("create_only", .vbool false),
         ("rotate", .vbool false), ("save_to", .vstr "dst"), ("x", .vstr "1")]

/-- The payload demoItemFull is written with: control keys stripped,
allowed_domains injected by the templated decode. -/
def c7pay : GoMap :=
  [("name", .vstr "r"), ("x", .vstr "1"), ("allowed_domains", .vstrList [])]

/-- The string and accessor map of the template-resolution
counterexample: two tokens, each matched by its own entry. -/
def c9Input : String := "u __accessor__a v __accessor__b"

def c9Mounts : List (String × String) := [("a", "acc1"), ("b", "acc2")]

/-! ## Helper lemmas about association-list maps -/

theorem lookupKey_append_none {m1 : GoMap} (m2 : GoMap) (k : String)
    (h : lookupKey m1 k = none) : lookupKey (m1 ++ m2) k = lookupKey m2 k := by
  induction m1 with
  | nil => simp
  | cons kv rest ih =>
    obtain ⟨k1, v1⟩ := kv
    simp only [lookupKey, List.cons_append] at *
    split at h
    · exact absurd h (by simp)
    · simp only [*]
      split
      · simp_all
      · exact ih h

theorem lookupKey_append_some {m1 : GoMap} (m2 : GoMap) (k : String) {v : GoVal}
    (h : lookupKey m1 k = some v) : lookupKey (m1 ++ m2) k = some v := by
  induction m1 with
  | nil => simp [lookupKey] at h
  | cons kv rest ih =>
    obtain ⟨k1, v1⟩ := kv
    simp only [lookupKey, List.cons_append] at *
    split at h
    · simp_all
    · simp only [*]
      split
      · simp_all
      · exact ih h

theorem lookupKey_eraseKey_self (m : GoMap) (k : String) :
    lookupKey (eraseKey m k) k = none := by
  induction m with
  | nil => rfl
  | cons kv rest ih =>
    obtain ⟨k1, v1⟩ := kv
    simp only [eraseKey, List.filter_cons] at *
    by_cases h : k1 == k
    · simp [h, ih]
    · simp only [h, Bool.not_false, if_pos]
      simpa [lookupKey, h] using ih

theorem lookupKey_eraseKey_ne (m : GoMap) (k k2 : String) (h : ¬ k2 = k) :
    lookupKey (eraseKey m k2) k = lookupKey m k := by
  induction m with
  | nil => rfl
  | cons kv rest ih =>
    obtain ⟨k1, v1⟩ := kv
    simp only [eraseKey, List.filter_cons] at ih ⊢
    by_cases h1 : k1 = k2
    · subst h1
      have hk : ¬ k1 = k := fun hh => h (hh ▸ rfl)
      simp [lookupKey, hk, ih, beq_iff_eq]
    · have hb : (k1 == k2) = false := by simpa using h1
      have hkk : ¬ k = k2 := fun hh => h hh.symm
      by_cases h2 : k1 = k
      · simp [lookupKey, hb, h2, hkk]
      · simp [lookupKey, hb, h2, ih]

theorem lookupKey_insertKey_ne (m : GoMap) (k k2 : String) (v : GoVal)
    (h : ¬ k2 = k) : lookupKey (insertKey m k2 v) k = lookupKey m k := by
  unfold insertKey
  have hb : (k2 == k) = false := by simpa using h
  cases h' : lookupKey (eraseKey m k2) k with
  | none =>
    rw [lookupKey_append_none _ _ h']
    rw [← lookupKey_eraseKey_ne m k k2 h, h']
    simp [lookupKey, hb]
  | some w =>
    rw [lookupKey_append_some _ _ h']
    rw [← lookupKey_eraseKey_ne m k k2 h, h']

/-- The payload left by the control-flag stripping holds none of the
three control keys. -/
theorem stripControl_no_flags (m : GoMap) :
    lookupKey (stripControl m).1 "create_only" = none ∧
    lookupKey (stripControl m).1 "rotate" = none ∧
    lookupKey (stripControl m).1 "save_to" = none := by
  unfold stripControl
  refine ⟨?_, ?_, ?_⟩
  · rw [lookupKey_eraseKey_ne _ _ _ (by decide)]
    rw [lookupKey_eraseKey_ne _ _ _ (by decide)]
    exact lookupKey_eraseKey_self _ _
  · rw [lookupKey_eraseKey_ne _ _ _ (by decide)]
    exact lookupKey_eraseKey_self _ _
  · exact lookupKey_eraseKey_self _ _

/-! ## Claim C2 -/

/-- Claim C2: evaluation of both retry loops on a persistently failing
operation and on succeeding ones.  The Mount loop behaves as the claim
states: slept waits 500ms, 1s, ..., 32s doubling, permanent failure
exactly when the computed wait first equals 60s (the eighth attempt), and
the attempt counter resets to zero on success.  The TuneMount loop does
not: because b.Duration() is invoked three times per failing iteration
(in the log line, in the ceiling comparison and in the sleep call), it
sleeps 2s then 16s, logs waits that differ from the slept ones, and
returns the error on its third failing attempt.  This contradicts the
claimed 500ms, 1s, 2s, ... schedule for the tune loop and the loop's own
log message, which prints a different wait than is slept. -/
theorem c2_tune_loop_backoff_divergence :
    ((List.range 7).all fun k => !(backoffForAttempt k == 60000)) = true
    ∧ backoffForAttempt 7 = 60000
    ∧ sleepsOf (mountLoop envOpsFail "kv" demoMI 8 0 0).1
        = [500, 1000, 2000, 4000, 8000, 16000, 32000]
    ∧ mountPathsOf (mountLoop envOpsFail "kv" demoMI 8 0 0).1
        = ["kv", "kv", "kv", "kv", "kv", "kv", "kv", "kv"]
    ∧ resultIsError (mountLoop envOpsFail "kv" demoMI 8 0 0).2.1 = true
    ∧ (mountLoop envFailTwice "kv" demoMI 8 0 0).2.2 = 0
    ∧ sleepsOf (mountLoop envFailTwice "kv" demoMI 8 0 0).1 = [500, 1000]
    ∧ mountPathsOf (mountLoop envFailTwice "kv" demoMI 8 0 0).1 = ["kv", "kv", "kv"]
    ∧ sleepsOf (tuneLoop envOpsFail "kv" demoMCI 8 0 0).1 = [2000, 16000]
    ∧ logWaitsOf (tuneLoop envOpsFail "kv" demoMCI 8 0 0).1 = [500, 4000, 32000]
    ∧ tunePathsOf (tuneLoop envOpsFail "kv" demoMCI 8 0 0).1 = ["kv", "kv", "kv"]
    ∧ resultIsError (tuneLoop envOpsFail "kv" demoMCI 8 0 0).2.1 = true
    ∧ (tuneLoop envAllOk "kv" demoMCI 8 0 0).2.2 = 0 := by
  decide

/-! ## Claim C3 -/

/-- Every effect the Mount retry loop emits is the mount call itself with
the fixed payload, a log line or a sleep. -/
theorem mountLoop_effects (env : Env) (path : String) (mi : MountInput) :
    ∀ gas i k e, e ∈ (mountLoop env path mi gas i k).1 →
      e = .mountCall path mi ∨ (∃ d, e = .logWait d) ∨ (∃ d, e = .sleep d) := by
  intro gas
  induction gas with
  | zero =>
    intro i k e he
    simp [mountLoop] at he
  | succ g ih =>
    intro i k e he
    simp only [mountLoop] at he
    cases h : env.mountRes path i with
    | ok u =>
      rw [h] at he
      simp at he
      exact .inl he
    | error er =>
      rw [h] at he
      simp only at he
      split at he
      · simp at he
        rcases he with he | he
        · exact .inl he
        · exact .inr (.inl ⟨_, he⟩)
      · simp only [List.cons_append, List.nil_append, List.mem_cons] at he
        rcases he with he | he | he | he
        · exact .inl he
        · exact .inr (.inl ⟨_, he⟩)
        · exact .inr (.inr ⟨_, he⟩)
        · exact ih (i + 1) (k + 1) e he

/-- Every effect the TuneMount retry loop emits is the tune call itself
with the fixed payload, a log line or a sleep. -/
theorem tuneLoop_effects (env : Env) (path : String) (mci : MountConfigInput) :
    ∀ gas i k e, e ∈ (tuneLoop env path mci gas i k).1 →
      e = .tuneCall path mci ∨ (∃ d, e = .logWait d) ∨ (∃ d, e = .sleep d) := by
  intro gas
  induction gas with
  | zero =>
    intro i k e he
    simp [tuneLoop] at he
  | succ g ih =>
    intro i k e he
    simp only [tuneLoop] at he
    cases h : env.tuneRes path i with
    | ok u =>
      rw [h] at he
      simp at he
      exact .inl he
    | error er =>
      rw [h] at he
      simp only at he
      split at he
      · simp at he
        rcases he with he | he
        · exact .inl he
        · exact .inr (.inl ⟨_, he⟩)
      · simp only [List.cons_append, List.nil_append, List.mem_cons] at he
        rcases he with he | he | he | he
        · exact .inl he
        · exact .inr (.inl ⟨_, he⟩)
        · exact .inr (.inr ⟨_, he⟩)
        · exact ih (i + 1) (k + 3) e he

/-- Claim C3 counterexample: for a concrete existing mount with declared
options, the tune call the pass issues carries those options in its
payload, so the options are resent on tune. -/
theorem c3_counterexample :
    demoKvEngine.options = [("version", "2")]
    ∧ tuneOptionsOf (processEngine envAllOk [] demoKvEngine ⟨0, 0, []⟩).1
        = [[("version", "2")]] :=
  ⟨rfl, rfl⟩

/-- Claim C3 as amended: the declared options are passed in the top-level
Options field of the mount input at creation time, and they are also part
of the tune payload, because the tune sends the whole decoded
MountConfigInput whose Options field getMountConfigInput overwrote with
the declared options. -/
theorem c3_amended_options_sent :
    ∀ env se mci mE att, getMountConfigInput se = .ok mci →
      (∀ p mi, Effect.mountCall p mi ∈ (ensureMount env se mci mE att).1 →
        mi.options = se.options)
      ∧ (∀ p c, Effect.tuneCall p c ∈ (ensureMount env se mci mE att).1 →
        c.options = se.options) := by
  intro env se mci mE att h
  have hopt : mci.options = se.options := by
    unfold getMountConfigInput at h
    cases hd : decodeMountConfigInput se.config with
    | error e => rw [hd] at h; simp at h
    | ok m =>
      rw [hd] at h
      simp only [Except.ok.injEq] at h
      rw [← h]
  constructor
  · intro p mi hmem
    unfold ensureMount at hmem
    split at hmem
    · rcases mountLoop_effects env se.path _ 8 0 att _ hmem with h1 | ⟨d, h1⟩ | ⟨d, h1⟩
      · cases h1
        simpa using hopt
      · cases h1
      · cases h1
    · rcases tuneLoop_effects env se.path mci 8 0 att _ hmem with h1 | ⟨d, h1⟩ | ⟨d, h1⟩
      all_goals cases h1
  · intro p c hmem
    unfold ensureMount at hmem
    split at hmem
    · rcases mountLoop_effects env se.path _ 8 0 att _ hmem with h1 | ⟨d, h1⟩ | ⟨d, h1⟩
      all_goals cases h1
    · rcases tuneLoop_effects env se.path mci 8 0 att _ hmem with h1 | ⟨d, h1⟩ | ⟨d, h1⟩
      · cases h1
        exact hopt
      · cases h1
      · cases h1

/-- Witness for the amended claim C3, at the concrete engine: its tune
payload options equal the declared options. -/
theorem c3_amended_witness : demoMCI.options = demoKvEngine.options := by
  have ht : (ensureMount envAllOk demoKvEngine demoMCI true 0).1
      = [Effect.tuneCall "kv" demoMCI] := rfl
  exact (c3_amended_options_sent envAllOk demoKvEngine demoMCI true 0 rfl).2 "kv" demoMCI
    (ht ▸ List.mem_singleton.mpr rfl)

/-! ## Claim C5 -/

/-- Claim C5: two processed rotate items computing the same rotation
endpoint trigger exactly one rotation write in a pass.  The first call
performs the write; on success the endpoint enters the rotation cache, so
the second call is a logged no-op with no write; on failure the cache is
left unchanged and the error is returned. -/
theorem c5_rotation_write_once :
    ∀ env (cache : List String) ty1 p1 n1 cp1 ty2 p2 n2 cp2 rp,
      rotatePathFor ty1 p1 n1 = some rp →
      rotatePathFor ty2 p2 n2 = some rp →
      cache.contains rp = false →
      ((∀ d, env.writeRes rp = .ok d →
        rotateWritesOf ((rotateSecretEngineCredentials env cache ty1 p1 n1 cp1).1
          ++ (rotateSecretEngineCredentials env
                (rotateSecretEngineCredentials env cache ty1 p1 n1 cp1).2.2
                ty2 p2 n2 cp2).1) = [rp]
        ∧ (rotateSecretEngineCredentials env cache ty1 p1 n1 cp1).2.2 = rp :: cache
        ∧ (rotateSecretEngineCredentials env cache ty1 p1 n1 cp1).2.1 = .ok ()
        ∧ (rotateSecretEngineCredentials env
             (rotateSecretEngineCredentials env cache ty1 p1 n1 cp1).2.2
             ty2 p2 n2 cp2).1 = [.rotateSkipLog rp]
        ∧ (rotateSecretEngineCredentials env
             (rotateSecretEngineCredentials env cache ty1 p1 n1 cp1).2.2
             ty2 p2 n2 cp2).2.1 = .ok ())
      ∧ (∀ e, env.writeRes rp = .error e →
          (rotateSecretEngineCredentials env cache ty1 p1 n1 cp1).2.2 = cache
          ∧ resultIsError (rotateSecretEngineCredentials env cache ty1 p1 n1 cp1).2.1
              = true)) := by
  intro env cache ty1 p1 n1 cp1 ty2 p2 n2 cp2 rp h1 h2 hc
  have hnm : rp ∉ cache := by simpa using hc
  constructor
  · intro d hw
    have e1 : rotateSecretEngineCredentials env cache ty1 p1 n1 cp1
        = ([.writeRotate rp], .ok (), rp :: cache) := by
      simp [rotateSecretEngineCredentials, h1, hnm, hw]
    have e2 : rotateSecretEngineCredentials env (rp :: cache) ty2 p2 n2 cp2
        = ([.rotateSkipLog rp], .ok (), rp :: cache) := by
      simp [rotateSecretEngineCredentials, h2, List.contains_cons]
    rw [e1]
    simp only [e2]
    simp [rotateWritesOf]
  · intro e hw
    simp [rotateSecretEngineCredentials, h1, hnm, hw, resultIsError]

/-- Witness for claim C5 at a concrete aws engine rotated twice in one
pass with a succeeding write. -/
theorem c5_rotation_write_once_witness :
    rotateWritesOf ((rotateSecretEngineCredentials envAllOk [] "aws" "awseng" "" "cp").1
      ++ (rotateSecretEngineCredentials envAllOk
            (rotateSecretEngineCredentials envAllOk [] "aws" "awseng" "" "cp").2.2
            "aws" "awseng" "" "cp").1) = ["awseng/config/rotate-root"]
    ∧ (rotateSecretEngineCredentials envAllOk [] "aws" "awseng" "" "cp").2.2
        = ["awseng/config/rotate-root"]
    ∧ (rotateSecretEngineCredentials envAllOk [] "aws" "awseng" "" "cp").2.1 = .ok ()
    ∧ (rotateSecretEngineCredentials envAllOk
         (rotateSecretEngineCredentials envAllOk [] "aws" "awseng" "" "cp").2.2
         "aws" "awseng" "" "cp").1 = [.rotateSkipLog "awseng/config/rotate-root"]
    ∧ (rotateSecretEngineCredentials envAllOk
         (rotateSecretEngineCredentials envAllOk [] "aws" "awseng" "" "cp").2.2
         "aws" "awseng" "" "cp").2.1 = .ok () := by
  exact (c5_rotation_write_once envAllOk [] "aws" "awseng" "" "cp" "aws" "awseng" "" "cp"
    "awseng/config/rotate-root" rfl rfl rfl).1 [("out", .vstr "o")] rfl

/-! ## Claim C6 -/

/-- Membership in the unmanaged set: exactly the trimmed existing paths
that are neither reserved nor the path of a managed engine. -/
theorem mem_getUnmanaged (env : Env) (lmIdx : Nat)
    (managed : List secretEngine) (ks : List String) (p : String)
    (h : env.listMounts lmIdx = .ok ks) :
    p ∈ (getUnmanagedSecretsEngines env lmIdx managed).2.1 ↔
      (p ∈ ks.map trimSlashes ∧ ¬ p ∈ managed.map secretEngine.path
        ∧ p ≠ "sys" ∧ p ≠ "identity" ∧ p ≠ "cubbyhole") := by
  unfold getUnmanagedSecretsEngines getExistingSecretsEngines
  rw [h]
  simp only [List.mem_filter, List.mem_dedup, List.mem_map,
    Bool.and_eq_true, Bool.not_eq_true', beq_eq_false_iff_ne, ne_eq,
    List.any_eq_true, List.any_eq_false, beq_iff_eq, not_exists, not_and]
  tauto

/-- When every unmount succeeds, the unmount loop unmounts exactly the
given paths, in order. -/
theorem unmountAll_all_ok (env : Env) :
    ∀ us : List String, (∀ q ∈ us, env.unmountRes q = .ok ()) →
      unmountsOf (unmountAll env us).1 = us := by
  intro us
  induction us with
  | nil => intro _; rfl
  | cons p rest ih =>
    intro hall
    have hp := hall p (by simp)
    simp only [unmountAll, hp]
    have := ih fun q hq => hall q (by simp [hq])
    simp [unmountsOf] at this ⊢
    exact this

/-- Claim C6: the unmanaged set equals the trimmed existing mounts minus
the managed normalized paths and the reserved system paths; with purging
enabled and the secrets category not excluded, pruning unmounts exactly
that set, and with purging disabled or the category excluded it unmounts
nothing. -/
theorem c6_unmanaged_set_and_pruning :
    ∀ env lmIdx (cfg0 : List secretEngine) (ks : List String) (purgeE purgeX : Bool),
      env.listMounts lmIdx = .ok ks →
      (∀ p, p ∈ (getUnmanagedSecretsEngines env lmIdx (initSecretsEnginesConfig cfg0)).2.1 ↔
        (p ∈ ks.map trimSlashes
          ∧ ¬ p ∈ (initSecretsEnginesConfig cfg0).map secretEngine.path
          ∧ ¬ p ∈ (["sys", "identity", "cubbyhole"] : List String)))
      ∧ ((∀ q ∈ (getUnmanagedSecretsEngines env lmIdx (initSecretsEnginesConfig cfg0)).2.1,
            env.unmountRes q = .ok ()) →
          purgeE = true → purgeX = false →
          unmountsOf (removeUnmanagedSecretsEngines env purgeE purgeX
              (getUnmanagedSecretsEngines env lmIdx (initSecretsEnginesConfig cfg0)).2.1).1
            = (getUnmanagedSecretsEngines env lmIdx (initSecretsEnginesConfig cfg0)).2.1)
      ∧ (purgeE = false ∨ purgeX = true →
          (removeUnmanagedSecretsEngines env purgeE purgeX
              (getUnmanagedSecretsEngines env lmIdx (initSecretsEnginesConfig cfg0)).2.1).1
            = []) := by
  intro env lmIdx cfg0 ks purgeE purgeX h
  refine ⟨?_, ?_, ?_⟩
  · intro p
    rw [mem_getUnmanaged env lmIdx _ ks p h]
    simp [and_assoc]
  · intro hall hpe hpx
    subst hpe; subst hpx
    set us := (getUnmanagedSecretsEngines env lmIdx (initSecretsEnginesConfig cfg0)).2.1 with hus
    unfold removeUnmanagedSecretsEngines
    by_cases he : us.isEmpty
    · have : us = [] := by simpa [List.isEmpty_iff] using he
      simp [he, this, unmountsOf]
    · simp only [he, Bool.not_true, Bool.false_or, Bool.or_false, Bool.or_self]
      simp only [Bool.false_eq_true, if_false]
      exact unmountAll_all_ok env us hall
  · intro hdis
    unfold removeUnmanagedSecretsEngines
    rcases hdis with h1 | h1 <;> subst h1 <;> simp

/-- Witness for claim C6: the pruning scenario with one stale mount.
The unmanaged set is exactly old-kv and pruning unmounts exactly it. -/
theorem c6_unmanaged_set_and_pruning_witness :
    ((getUnmanagedSecretsEngines envPrune 0 (initSecretsEnginesConfig [demoKvEngine])).2.1
        = ["old-kv"])
    ∧ unmountsOf (removeUnmanagedSecretsEngines envPrune true false
        (getUnmanagedSecretsEngines envPrune 0 (initSecretsEnginesConfig [demoKvEngine])).2.1).1
      = (getUnmanagedSecretsEngines envPrune 0 (initSecretsEnginesConfig [demoKvEngine])).2.1
    ∧ (removeUnmanagedSecretsEngines envPrune false false
        (getUnmanagedSecretsEngines envPrune 0 (initSecretsEnginesConfig [demoKvEngine])).2.1).1
      = [] := by
  refine ⟨rfl, ?_, ?_⟩
  · exact (c6_unmanaged_set_and_pruning envPrune 0 [demoKvEngine]
      ["kv/", "sys/", "identity/", "cubbyhole/", "old-kv/"] true false rfl).2.1
      (fun q _ => rfl) rfl rfl
  · exact (c6_unmanaged_set_and_pruning envPrune 0 [demoKvEngine]
      ["kv/", "sys/", "identity/", "cubbyhole/", "old-kv/"] false false rfl).2.2
      (.inl rfl)

/-! ## Claim C9 -/

/-- Claim C9 counterexample: the input holds two accessor tokens and the
accessor map holds a matching entry for each, but replaceAccessor
substitutes only the first matching entry and returns, so a token whose
entry does match survives in the output; this happens under either
iteration order, and the output differs from the claimed
replace-every-matching-token result. -/
theorem c9_counterexample :
    containsSub c9Input "__accessor__b" = true
    ∧ containsSub (replaceAccessor c9Input c9Mounts) "__accessor__b" = true
    ∧ containsSub (replaceAccessor c9Input c9Mounts.reverse) "__accessor__a" = true
    ∧ replaceAccessor c9Input c9Mounts
        ≠ strReplaceAll (strReplaceAll c9Input "__accessor__a" "acc1")
            "__accessor__b" "acc2" := by
  decide

/-- Claim C9 as amended: only the first entry of the accessor map, in
iteration order, whose trimmed path makes its token occur in the string
is applied; every occurrence of that one token is replaced by that
accessor ID; tokens of the remaining entries are left untouched, and with
no matching entry the string is returned unchanged.  The closed conjuncts
instantiate the single-entry scenario: the token is replaced everywhere
and no literal token remains. -/
theorem c9_amended_first_match :
    (∀ (input : String) (mounts : List (String × String)),
      replaceAccessor input mounts =
        match mounts.find?
            (fun kv => containsSub input ("__accessor__" ++ trimRightSlashes kv.1)) with
        | none => input
        | some kv => strReplaceAll input ("__accessor__" ++ trimRightSlashes kv.1) kv.2)
    ∧ replaceAccessor "x.__accessor__github-mount." [("github-mount", "acc-123")]
        = "x.acc-123."
    ∧ containsSub (replaceAccessor "x.__accessor__github-mount."
        [("github-mount", "acc-123")]) "__accessor__github-mount" = false := by
  refine ⟨?_, by decide, by decide⟩
  intro input mounts
  induction mounts with
  | nil => rfl
  | cons kv rest ih =>
    obtain ⟨k, v⟩ := kv
    simp only [replaceAccessor, List.find?_cons]
    by_cases hc : containsSub input ("__accessor__" ++ trimRightSlashes k)
    · simp [hc]
    · simp only [hc, cond_false]
      exact ih

/-! ## Claim C4 -/

/-- Claim C4 counterexample: the ListMounts call made while computing the
unmanaged set fails, yet the pass performs a tune mutation afterwards and
returns no error, because getUnmanagedSecretsEngines discards the
listing error and continues with an empty unmanaged set. -/
theorem c4_counterexample :
    envListFailOnce.listMounts 0 = .error "listing failed"
    ∧ (configureSecretsEngines envListFailOnce demoCfg).2 = .ok ()
    ∧ tunePathsOf (configureSecretsEngines envListFailOnce demoCfg).1 = ["kv"]
    ∧ unmountsOf (configureSecretsEngines envListFailOnce demoCfg).1 = [] :=
  ⟨rfl, rfl, rfl, rfl⟩

/-- A failed listing inside the unmanaged-set computation yields the
empty set, with no error reported anywhere in the type. -/
theorem getUnmanaged_swallows_listing_error (env : Env) (lmIdx : Nat)
    (managed : List secretEngine) (e : String)
    (h : env.listMounts lmIdx = .error e) :
    (getUnmanagedSecretsEngines env lmIdx managed).2.1 = [] := by
  unfold getUnmanagedSecretsEngines getExistingSecretsEngines
  rw [h]
  rfl

/-- Claim C4 as amended: a ListAuth failure aborts the pass with the
error before any remote mutation; a ListMounts failure in the first
mount-existence check aborts the pass with an error and no mutation is
performed; but the ListMounts failure inside the unmanaged-set
computation is silently discarded, the unmanaged set becomes empty and
the pass continues without surfacing the error. -/
theorem c4_amended_listing_failures :
    (∀ env (cfg : ExternalConfig) e, env.listAuth = .error e →
      configureSecretsEngines env cfg =
        ([.listAuthCall],
         .error (.wrap "error while getting list of auth engines for secret engine configuration"
           (.external e))))
    ∧ (∀ env lmIdx (managed : List secretEngine) e,
        env.listMounts lmIdx = .error e →
        (getUnmanagedSecretsEngines env lmIdx managed).2.1 = [])
    ∧ (∀ env (cfg : ExternalConfig) auths se rest e,
        env.listAuth = .ok auths →
        cfg.secrets = se :: rest →
        env.listMounts 1 = .error e →
        resultIsError (configureSecretsEngines env cfg).2 = true
        ∧ mutationsOf (configureSecretsEngines env cfg).1 = []) := by
  refine ⟨?_, ?_, ?_⟩
  · intro env cfg e h
    simp [configureSecretsEngines, h]
  · intro env lmIdx managed e h
    exact getUnmanaged_swallows_listing_error env lmIdx managed e h
  · intro env cfg auths se rest e ha hs h1
    have hgu : (getUnmanagedSecretsEngines env 0 (initSecretsEnginesConfig cfg.secrets)).1
          = [.listMountsCall 0]
        ∧ (getUnmanagedSecretsEngines env 0 (initSecretsEnginesConfig cfg.secrets)).2.2 = 1 := by
      unfold getUnmanagedSecretsEngines getExistingSecretsEngines
      cases h0 : env.listMounts 0 <;> simp
    obtain ⟨hg1, hg2⟩ := hgu
    have hadd : ∀ st : PassState, st.lmIdx = 1 →
        addManagedSecretsEngines env auths (initSecretsEnginesConfig cfg.secrets) st
          = ([.listMountsCall 1],
             .error (.wrap "error reading mounts from vault" (.external e)),
             ⟨st.attempt, 2, st.cache⟩) := by
      intro st hst
      rw [hs]
      simp only [initSecretsEnginesConfig, List.map_cons, addManagedSecretsEngines,
        processEngine, mountExistsM, hst, h1]
    simp only [configureSecretsEngines, ha]
    rw [hadd ⟨0, (getUnmanagedSecretsEngines env 0 (initSecretsEnginesConfig cfg.secrets)).2.2, []⟩ hg2]
    simp [hg1, mutationsOf, isMutation, resultIsError]

/-- Witness for the amended claim C4: with the first mount-existence
listing failing, the pass aborts with an error and performs no mutation. -/
theorem c4_amended_listing_failures_witness :
    resultIsError (configureSecretsEngines envListFailSecond demoCfg).2 = true
    ∧ mutationsOf (configureSecretsEngines envListFailSecond demoCfg).1 = [] :=
  c4_amended_listing_failures.2.2 envListFailSecond demoCfg [] demoKvEngine [] "boom2"
    rfl rfl rfl

/-! ## Phase lemmas for the per-item claims -/

/-- The probe emits exactly one effect: the CA status check or the read. -/
theorem probeSecretExists_trace (env : Env) (p o cp : String) :
    (probeSecretExists env p o cp).1 = [.probeCA p]
    ∨ (probeSecretExists env p o cp).1 = [.probeRead cp] := by
  unfold probeSecretExists
  split
  · rcases hca : env.caStatus p with e | code <;> simp [hca]
  · rcases hr : env.readRes cp with e | secret <;> simp [hr]

/-- Probe errors are wrapped external errors. -/
theorem probeSecretExists_err (env : Env) (p o cp : String) (er : VErr) :
    (probeSecretExists env p o cp).2 = .error er → ∃ c e0, er = .wrap c e0 := by
  unfold probeSecretExists
  split
  · rcases hca : env.caStatus p with e | code
    · intro h
      simp at h
      exact ⟨_, _, h.symm⟩
    · intro h
      simp at h
  · rcases hr : env.readRes cp with e | secret
    · intro h
      simp at h
      exact ⟨_, _, h.symm⟩
    · intro h
      simp at h

/-- With a freshly created mount the probe phase is skipped entirely. -/
theorem probePhase_fresh (env : Env) (co rot : Bool) (p o cp : String) :
    probePhase env co rot false p o cp = ([], .ok true) := by
  simp [probePhase]

/-- With a flag set, a pre-existing mount and a populated probe, the
probe phase yields the skip log and clears shouldUpdate. -/
theorem probePhase_skip (env : Env) (co rot : Bool) (p o cp : String)
    (hflag : (co || rot) = true)
    (hpr : (probeSecretExists env p o cp).2 = .ok true) :
    probePhase env co rot true p o cp
      = ((probeSecretExists env p o cp).1
          ++ [.skipLog cp (if co then "create_only" else "rotate")], .ok false) := by
  simp [probePhase, hflag, hpr]

/-- Every effect of the probe phase is a probe or a skip log. -/
theorem probePhase_mem (env : Env) (co rot mE : Bool) (p o cp : String) :
    ∀ e ∈ (probePhase env co rot mE p o cp).1,
      e = .probeCA p ∨ e = .probeRead cp ∨ ∃ r, e = .skipLog cp r := by
  intro e he
  unfold probePhase at he
  split at he
  · rcases hp : (probeSecretExists env p o cp).2 with er | b
    · rw [hp] at he
      simp only at he
      rcases probeSecretExists_trace env p o cp with ht | ht <;> rw [ht] at he <;>
        simp at he <;> simp [he]
    · rw [hp] at he
      simp only at he
      split at he
      · rcases probeSecretExists_trace env p o cp with ht | ht <;> rw [ht] at he <;>
          simp at he <;> rcases he with he | he <;> simp [he]
      · rcases probeSecretExists_trace env p o cp with ht | ht <;> rw [ht] at he <;>
          simp at he <;> simp [he]
  · simp at he

/-- Probe-phase errors are wrapped external errors. -/
theorem probePhase_err (env : Env) (co rot mE : Bool) (p o cp : String) (er : VErr) :
    (probePhase env co rot mE p o cp).2 = .error er → ∃ c e0, er = .wrap c e0 := by
  unfold probePhase
  split
  · rcases hp : (probeSecretExists env p o cp).2 with e0 | b
    · intro h
      simp only at h
      simp at h
      exact probeSecretExists_err env p o cp er (by rw [hp, h])
    · simp only
      split <;> intro h <;> simp at h
  · intro h
    simp at h

/-- A cleared shouldUpdate makes the write phase a no-op. -/
theorem writePhase_skip (env : Env) (cp st : String) (pay : GoMap) :
    writePhase env false cp st pay = ([], .proceeded) := rfl

/-- Every effect of the write phase is the config write of the stripped
payload at the config path, or the save_to write of the NewData-wrapped
result of the config write. -/
theorem writePhase_mem (env : Env) (su : Bool) (cp st : String) (pay : GoMap) :
    ∀ e ∈ (writePhase env su cp st pay).1,
      e = .writeConfig cp pay
      ∨ ∃ kv, e = .writeSaveTo st kv ∧ kv.cas = 0 ∧ env.writeRes cp = .ok kv.data := by
  intro e he
  unfold writePhase at he
  split at he
  · rcases hw : env.writeRes cp with e0 | secData
    · rw [hw] at he
      simp only at he
      split at he <;> simp at he <;> simp [he]
    · rw [hw] at he
      simp only at he
      split at he
      · rcases hw2 : env.writeRes st with e1 | d1 <;> rw [hw2] at he <;> simp at he <;>
          rcases he with he | he
        · simp [he]
        · subst he
          exact .inr ⟨⟨secData, 0⟩, rfl, rfl, rfl⟩
        · simp [he]
        · subst he
          exact .inr ⟨⟨secData, 0⟩, rfl, rfl, rfl⟩
      · simp at he
        simp [he]
  · simp at he

/-- The write phase with shouldUpdate set always performs exactly one
config write, at the config path. -/
theorem writePhase_config_paths (env : Env) (cp st : String) (pay : GoMap) :
    writeConfigPathsOf (writePhase env true cp st pay).1 = [cp] := by
  unfold writePhase
  rw [if_pos rfl]
  split
  · split <;> simp [writeConfigPathsOf]
  · split
    · split <;> simp [writeConfigPathsOf]
    · simp [writeConfigPathsOf]

/-- Failed write outcomes carry wrapped external errors. -/
theorem writePhase_failed (env : Env) (su : Bool) (cp st : String) (pay : GoMap)
    (er : VErr) :
    (writePhase env su cp st pay).2 = .failed er → ∃ c e0, er = .wrap c e0 := by
  unfold writePhase
  split
  · split
    · split <;> intro h <;> simp at h
      exact ⟨_, _, h.symm⟩
    · split
      · split <;> intro h <;> simp at h
        exact ⟨_, _, h.symm⟩
      · intro h
        simp at h
  · intro h
    simp at h

/-- The rotation coordinator emits at most one effect: a rotation write
or a skip log. -/
theorem rotateCreds_trace (env : Env) (cache : List String) (ty p n cp : String) :
    (rotateSecretEngineCredentials env cache ty p n cp).1 = []
    ∨ (∃ q, (rotateSecretEngineCredentials env cache ty p n cp).1 = [.rotateSkipLog q])
    ∨ (∃ q, (rotateSecretEngineCredentials env cache ty p n cp).1 = [.writeRotate q]) := by
  unfold rotateSecretEngineCredentials
  split
  · exact .inl rfl
  · split
    · exact .inr (.inl ⟨_, rfl⟩)
    · split
      · exact .inr (.inr ⟨_, rfl⟩)
      · exact .inr (.inr ⟨_, rfl⟩)

/-- Every effect of the rotation phase is a rotation write or a rotation
skip log. -/
theorem rotatePhase_mem (env : Env) (rot mE : Bool) (ty p o : String)
    (name : GoVal) (cp : String) (cache : List String) :
    ∀ e ∈ (rotatePhase env rot mE ty p o name cp cache).1,
      (∃ q, e = .writeRotate q) ∨ (∃ q, e = .rotateSkipLog q) := by
  intro e he
  unfold rotatePhase at he
  split at he
  · have htr := rotateCreds_trace env cache ty p (nameStrOf name) cp
    split at he <;>
      rcases htr with ht | ⟨q, ht⟩ | ⟨q, ht⟩ <;> rw [ht] at he <;> simp at he <;> simp [he]
  · simp at he

/-- The rotation phase is a no-op for a freshly created mount. -/
theorem rotatePhase_fresh (env : Env) (rot : Bool) (ty p o : String)
    (name : GoVal) (cp : String) (cache : List String) :
    rotatePhase env rot false ty p o name cp cache = ([], .ok (), cache) := by
  simp [rotatePhase]

/-- Rotation-phase errors are wrapped errors. -/
theorem rotatePhase_err (env : Env) (rot mE : Bool) (ty p o : String)
    (name : GoVal) (cp : String) (cache : List String) (er : VErr) :
    (rotatePhase env rot mE ty p o name cp cache).2.1 = .error er →
      ∃ c e0, er = .wrap c e0 := by
  unfold rotatePhase
  split
  · split <;> intro h <;> simp at h
    exact ⟨_, _, h.symm⟩
  · intro h
    simp at h

/-- Master characterization of the effects one item can emit: probes,
skip logs, the config write of the stripped payload at the computed
config path, the save_to write of the NewData-wrapped result of the
config write, and rotation effects. -/
theorem processItem_mem (env : Env) (mounts : List (String × String))
    (seType sePath : String) (mE : Bool) (opt : String) (raw : GoItem)
    (cache : List String) (sub : GoMap)
    (hd : decodeTemplated mounts raw = .ok sub) :
    ∀ e ∈ (processItem env mounts seType sePath mE opt raw cache).1,
      e = .writeConfig (configPathOf sePath opt ((lookupKey sub "name").getD .vnil))
            (stripControl (normalizeMap sub)).1
      ∨ (∃ kv, e = .writeSaveTo (stripControl (normalizeMap sub)).2.2.2 kv ∧ kv.cas = 0
          ∧ env.writeRes (configPathOf sePath opt ((lookupKey sub "name").getD .vnil))
              = .ok kv.data)
      ∨ (∃ q, e = .probeCA q) ∨ (∃ q, e = .probeRead q) ∨ (∃ q r, e = .skipLog q r)
      ∨ (∃ q, e = .writeRotate q) ∨ (∃ q, e = .rotateSkipLog q) := by
  intro e he
  simp only [processItem, hd] at he
  split at he
  · simp at he
  · rcases hp : (probePhase env (stripControl (normalizeMap sub)).2.1
        (stripControl (normalizeMap sub)).2.2.1 mE sePath opt
        (configPathOf sePath opt ((lookupKey sub "name").getD .vnil))).2 with er | su
    · rw [hp] at he
      simp only at he
      rcases probePhase_mem env _ _ mE sePath opt _ e he with h1 | h1 | ⟨r, h1⟩
      · exact .inr (.inr (.inl ⟨_, h1⟩))
      · exact .inr (.inr (.inr (.inl ⟨_, h1⟩)))
      · exact .inr (.inr (.inr (.inr (.inl ⟨_, _, h1⟩))))
    · rw [hp] at he
      simp only at he
      cases hw : (writePhase env su
          (configPathOf sePath opt ((lookupKey sub "name").getD .vnil))
          (stripControl (normalizeMap sub)).2.2.2
          (stripControl (normalizeMap sub)).1).2 with
      | proceeded =>
        rw [hw] at he
        simp only [List.append_assoc, List.mem_append] at he
        rcases he with he | he | he
        · rcases probePhase_mem env _ _ mE sePath opt _ e he with h1 | h1 | ⟨r, h1⟩
          · exact .inr (.inr (.inl ⟨_, h1⟩))
          · exact .inr (.inr (.inr (.inl ⟨_, h1⟩)))
          · exact .inr (.inr (.inr (.inr (.inl ⟨_, _, h1⟩))))
        · rcases writePhase_mem env su _ _ _ e he with h1 | ⟨kv, h1, h2, h3⟩
          · exact .inl h1
          · exact .inr (.inl ⟨kv, h1, h2, h3⟩)
        · rcases rotatePhase_mem env _ mE seType sePath opt _ _ cache e he with ⟨q, h1⟩ | ⟨q, h1⟩
          · exact .inr (.inr (.inr (.inr (.inr (.inl ⟨_, h1⟩)))))
          · exact .inr (.inr (.inr (.inr (.inr (.inr ⟨_, h1⟩)))))
      | skippedConflict =>
        rw [hw] at he
        simp only [List.mem_append] at he
        rcases he with he | he
        · rcases probePhase_mem env _ _ mE sePath opt _ e he with h1 | h1 | ⟨r, h1⟩
          · exact .inr (.inr (.inl ⟨_, h1⟩))
          · exact .inr (.inr (.inr (.inl ⟨_, h1⟩)))
          · exact .inr (.inr (.inr (.inr (.inl ⟨_, _, h1⟩))))
        · rcases writePhase_mem env su _ _ _ e he with h1 | ⟨kv, h1, h2, h3⟩
          · exact .inl h1
          · exact .inr (.inl ⟨kv, h1, h2, h3⟩)
      | failed e0 =>
        rw [hw] at he
        simp only [List.mem_append] at he
        rcases he with he | he
        · rcases probePhase_mem env _ _ mE sePath opt _ e he with h1 | h1 | ⟨r, h1⟩
          · exact .inr (.inr (.inl ⟨_, h1⟩))
          · exact .inr (.inr (.inr (.inl ⟨_, h1⟩)))
          · exact .inr (.inr (.inr (.inr (.inl ⟨_, _, h1⟩))))
        · rcases writePhase_mem env su _ _ _ e he with h1 | ⟨kv, h1, h2, h3⟩
          · exact .inl h1
          · exact .inr (.inl ⟨kv, h1, h2, h3⟩)

/-! ## Claim C7 -/

/-- Claim C7: the three control keys create_only, rotate and save_to are
stripped from every item before transmission: no config-write payload
ever holds any of them, and every save_to payload is the fixed NewData
wrapper (top-level keys data and options) of the preceding config
write's result. -/
theorem c7_control_flags_never_transmitted :
    ∀ env mounts seType sePath mE opt raw (cache : List String),
      (∀ q d, Effect.writeConfig q d
          ∈ (processItem env mounts seType sePath mE opt raw cache).1 →
        lookupKey d "create_only" = none ∧ lookupKey d "rotate" = none
        ∧ lookupKey d "save_to" = none)
      ∧ (∀ q kv, Effect.writeSaveTo q kv
          ∈ (processItem env mounts seType sePath mE opt raw cache).1 →
        kv.cas = 0 ∧ ∃ cpath, env.writeRes cpath = .ok kv.data) := by
  intro env mounts seType sePath mE opt raw cache
  rcases hdec : decodeTemplated mounts raw with e | sub
  · constructor
    · intro q d hmem
      simp only [processItem, hdec] at hmem
      simp at hmem
    · intro q kv hmem
      simp only [processItem, hdec] at hmem
      simp at hmem
  · constructor
    · intro q d hmem
      rcases processItem_mem env mounts seType sePath mE opt raw cache sub hdec _ hmem with
        h | ⟨kv, h, _, _⟩ | ⟨x, h⟩ | ⟨x, h⟩ | ⟨x, r, h⟩ | ⟨x, h⟩ | ⟨x, h⟩
      · injection h with h1 h2
        rw [h2]
        exact stripControl_no_flags _
      all_goals simp at h
    · intro q kv hmem
      rcases processItem_mem env mounts seType sePath mE opt raw cache sub hdec _ hmem with
        h | ⟨kv2, h, hcas, hres⟩ | ⟨x, h⟩ | ⟨x, h⟩ | ⟨x, r, h⟩ | ⟨x, h⟩ | ⟨x, h⟩
      · simp at h
      · injection h with h1 h2
        rw [h2]
        exact ⟨hcas, ⟨_, hres⟩⟩
      all_goals simp at h

/-- Witness for claim C7 at a concrete item carrying the three control
keys and a save_to target, on a fresh mount with succeeding writes. -/
theorem c7_control_flags_never_transmitted_witness :
    (lookupKey c7pay "create_only" = none ∧ lookupKey c7pay "rotate" = none
      ∧ lookupKey c7pay "save_to" = none)
    ∧ ((⟨[("out", .vstr "o")], 0⟩ : KVData).cas = 0
      ∧ ∃ cpath, envNotFound.writeRes cpath = .ok (⟨[("out", .vstr "o")], 0⟩ : KVData).data) := by
  have ht : (processItem envNotFound [] "database" "db" false "roles" demoItemFull []).1
      = [Effect.writeConfig "db/roles/r" c7pay,
         Effect.writeSaveTo "dst" ⟨[("out", .vstr "o")], 0⟩] := rfl
  constructor
  · exact (c7_control_flags_never_transmitted envNotFound [] "database" "db" false
      "roles" demoItemFull []).1 "db/roles/r" c7pay (ht ▸ List.Mem.head _)
  · exact (c7_control_flags_never_transmitted envNotFound [] "database" "db" false
      "roles" demoItemFull []).2 "dst" ⟨[("out", .vstr "o")], 0⟩
      (ht ▸ List.Mem.tail _ (List.Mem.head _))

/-! ## Claim C8 -/

/-- The templated decode of a map item always succeeds and preserves
every key other than allowed_domains. -/
theorem decodeTemplated_imap (mounts : List (String × String)) (m : GoMap) :
    ∃ sub, decodeTemplated mounts (.imap m) = .ok sub ∧
      ∀ k, ¬ k = "allowed_domains" → lookupKey sub k = lookupKey m k := by
  simp only [decodeTemplated]
  rcases hd : lookupKey m "allowed_domains" with _ | v
  · exact ⟨_, rfl, fun k hk => lookupKey_insertKey_ne m k _ _ (fun hh => hk hh.symm)⟩
  · cases v
    case vstrList l =>
      exact ⟨_, rfl, fun k hk => lookupKey_insertKey_ne m k _ _ (fun hh => hk hh.symm)⟩
    all_goals exact ⟨_, rfl, fun k hk => rfl⟩

/-- The exemption predicate holds exactly for the fixed table: the config
option of the six listed engine types, aws with config/root, and transit
with cache-config. -/
theorem configNeedsNoName_characterization (ty o : String) :
    configNeedsNoName ty o = true ↔
      ((o = "config" ∧ ty ∈ secretEnginesWithoutNameConfig)
       ∨ (ty = "aws" ∧ o = "config/root")
       ∨ (ty = "transit" ∧ o = "cache-config")) := by
  unfold configNeedsNoName
  by_cases ho : o = "config"
  · subst ho
    simp only [beq_self_eq_true, if_true]
    constructor
    · intro h
      exact .inl ⟨by trivial, by simpa using h⟩
    · intro h
      rcases h with ⟨_, hm⟩ | ⟨h1, h2⟩ | ⟨h1, h2⟩
      · simpa using hm
      · exact absurd h2 (by decide)
      · exact absurd h2 (by decide)
  · have hb : (o == "config") = false := by simpa using ho
    simp only [hb, Bool.false_eq_true, if_false]
    by_cases ha : ty = "aws" ∧ o = "config/root"
    · obtain ⟨ha1, ha2⟩ := ha
      subst ha1
      subst ha2
      simp only [beq_self_eq_true, Bool.and_self, if_true]
      exact ⟨fun _ => .inr (.inl ⟨by trivial, by trivial⟩), fun _ => by trivial⟩
    · have hb2 : (ty == "aws" && o == "config/root") = false := by
        rcases not_and_or.mp ha with h | h <;> simp [h]
      simp only [hb2, Bool.false_eq_true, if_false]
      by_cases htr : ty = "transit" ∧ o = "cache-config"
      · obtain ⟨h1, h2⟩ := htr
        subst h1
        subst h2
        simp only [beq_self_eq_true, Bool.and_self, if_true]
        exact ⟨fun _ => .inr (.inr ⟨by trivial, by trivial⟩), fun _ => by trivial⟩
      · have hb3 : (ty == "transit" && o == "cache-config") = false := by
          rcases not_and_or.mp htr with h | h <;> simp [h]
        simp only [hb3, Bool.false_eq_true, if_false]
        constructor
        · intro h
          exact absurd h (by simp)
        · intro h
          rcases h with ⟨h1, _⟩ | ⟨h1, h2⟩ | ⟨h1, h2⟩
          · exact absurd h1 ho
          · exact absurd ⟨h1, h2⟩ ha
          · exact absurd ⟨h1, h2⟩ htr

/-- Claim C8: an item without a name key is a fatal, pass-aborting error
exactly when the engine-type / configOption pair is not exempt; when it
is exempt, processing never produces the missing-name error; and the
exemptions are exactly the fixed table. -/
theorem c8_missing_name_fatal_iff_nonexempt :
    ∀ env mounts seType sePath mE opt (m : GoMap) (cache : List String),
      lookupKey m "name" = none →
      (configNeedsNoName seType opt = false →
        processItem env mounts seType sePath mE opt (.imap m) cache
          = ([], .error (.nameMissing sePath opt), cache))
      ∧ (configNeedsNoName seType opt = true →
        ∀ p2 o2, (processItem env mounts seType sePath mE opt (.imap m) cache).2.1
          ≠ .error (.nameMissing p2 o2))
      ∧ (∀ ty2 o2, configNeedsNoName ty2 o2 = true ↔
          ((o2 = "config" ∧ ty2 ∈ secretEnginesWithoutNameConfig)
           ∨ (ty2 = "aws" ∧ o2 = "config/root")
           ∨ (ty2 = "transit" ∧ o2 = "cache-config"))) := by
  intro env mounts seType sePath mE opt m cache hmn
  obtain ⟨sub, hdec, hpres⟩ := decodeTemplated_imap mounts m
  have hname : lookupKey sub "name" = none := by
    rw [hpres "name" (by decide)]
    exact hmn
  refine ⟨?_, ?_, configNeedsNoName_characterization⟩
  · intro hex
    simp [processItem, hdec, hname, hex]
  · intro hex p2 o2 hcontra
    simp only [processItem, hdec, hname, hex, Option.isNone_none, Option.getD_none,
      Bool.not_true, Bool.and_false, Bool.false_eq_true, if_false] at hcontra
    rcases hp : (probePhase env (stripControl (normalizeMap sub)).2.1
        (stripControl (normalizeMap sub)).2.2.1 mE sePath opt
        (configPathOf sePath opt GoVal.vnil)).2 with er | su
    · rw [hp] at hcontra
      simp at hcontra
      obtain ⟨c, e0, hwrap⟩ := probePhase_err env _ _ mE sePath opt _ er hp
      rw [hwrap] at hcontra
      simp at hcontra
    · rw [hp] at hcontra
      simp only at hcontra
      cases hw : (writePhase env su
          (configPathOf sePath opt GoVal.vnil)
          (stripControl (normalizeMap sub)).2.2.2
          (stripControl (normalizeMap sub)).1).2 with
      | proceeded =>
        rw [hw] at hcontra
        simp only at hcontra
        rcases hr : (rotatePhase env (stripControl (normalizeMap sub)).2.2.1 mE
            seType sePath opt GoVal.vnil
            (configPathOf sePath opt GoVal.vnil) cache).2.1
          with er2 | u
        · rw [hr] at hcontra
          simp at hcontra
          obtain ⟨c, e0, hwrap⟩ := rotatePhase_err env _ mE seType sePath opt _ _ cache er2 hr
          rw [hwrap] at hcontra
          simp at hcontra
        · rw [hr] at hcontra
          simp at hcontra
      | skippedConflict =>
        rw [hw] at hcontra
        simp at hcontra
      | failed e0 =>
        rw [hw] at hcontra
        simp at hcontra
        obtain ⟨c, e1, hwrap⟩ := writePhase_failed env su _ _ _ e0 hw
        rw [hwrap] at hcontra
        simp at hcontra

/-- Witness for claim C8: a nameless item under a non-exempt pair aborts
with the missing-name error, and the same item under the exempt
transit/cache-config pair never produces that error. -/
theorem c8_missing_name_fatal_iff_nonexempt_witness :
    processItem envNotFound [] "pki" "pki" true "roles" (.imap [("x", .vstr "1")]) []
      = ([], .error (.nameMissing "pki" "roles"), [])
    ∧ ∀ p2 o2, (processItem envNotFound [] "transit" "transit" true "cache-config"
        (.imap [("x", .vstr "1")]) []).2.1 ≠ .error (.nameMissing p2 o2) := by
  constructor
  · exact (c8_missing_name_fatal_iff_nonexempt envNotFound [] "pki" "pki" true "roles"
      [("x", .vstr "1")] [] rfl).1 rfl
  · exact (c8_missing_name_fatal_iff_nonexempt envNotFound [] "transit" "transit" true
      "cache-config" [("x", .vstr "1")] [] rfl).2.1 rfl

/-! ## Claim C10 -/

/-- Once the name check has passed, every error the item processing can
return is a wrapped error, never the missing-name error. -/
theorem processItem_errors_wrapped (env : Env) (mounts : List (String × String))
    (seType sePath : String) (mE : Bool) (opt : String) (raw : GoItem)
    (cache : List String) (sub : GoMap)
    (hdec : decodeTemplated mounts raw = .ok sub)
    (hcond : ((lookupKey sub "name").isNone && !configNeedsNoName seType opt) = false) :
    ∀ er, (processItem env mounts seType sePath mE opt raw cache).2.1 = .error er →
      ∃ c e0, er = .wrap c e0 := by
  intro er hcontra
  simp only [processItem, hdec, hcond, Bool.false_eq_true, if_false] at hcontra
  rcases hp : (probePhase env (stripControl (normalizeMap sub)).2.1
      (stripControl (normalizeMap sub)).2.2.1 mE sePath opt
      (configPathOf sePath opt ((lookupKey sub "name").getD .vnil))).2 with er1 | su
  · rw [hp] at hcontra
    simp at hcontra
    cases hcontra
    exact probePhase_err env _ _ mE sePath opt _ _ hp
  · rw [hp] at hcontra
    simp only at hcontra
    cases hw : (writePhase env su
        (configPathOf sePath opt ((lookupKey sub "name").getD .vnil))
        (stripControl (normalizeMap sub)).2.2.2
        (stripControl (normalizeMap sub)).1).2 with
    | proceeded =>
      rw [hw] at hcontra
      simp only at hcontra
      rcases hr : (rotatePhase env (stripControl (normalizeMap sub)).2.2.1 mE
          seType sePath opt ((lookupKey sub "name").getD .vnil)
          (configPathOf sePath opt ((lookupKey sub "name").getD .vnil)) cache).2.1
        with er2 | u
      · rw [hr] at hcontra
        simp at hcontra
        cases hcontra
        exact rotatePhase_err env _ mE seType sePath opt _ _ cache _ hr
      · rw [hr] at hcontra
        simp at hcontra
    | skippedConflict =>
      rw [hw] at hcontra
      simp at hcontra
    | failed e0 =>
      rw [hw] at hcontra
      simp at hcontra
      cases hcontra
      exact writePhase_failed env su _ _ _ _ hw

/-- Claim C10: an item whose name key is present but nil never triggers
the missing-name error, even for a non-exempt pair, and every config
write it performs targets the nameless path mountPath/configOption. -/
theorem c10_nil_name_processed_without_name :
    ∀ env mounts seType sePath mE opt (m : GoMap) (cache : List String),
      lookupKey m "name" = some .vnil →
      (∀ p2 o2, (processItem env mounts seType sePath mE opt (.imap m) cache).2.1
          ≠ .error (.nameMissing p2 o2))
      ∧ (∀ q, q ∈ writeConfigPathsOf
            (processItem env mounts seType sePath mE opt (.imap m) cache).1 →
          q = sePath ++ "/" ++ opt) := by
  intro env mounts seType sePath mE opt m cache hmn
  obtain ⟨sub, hdec, hpres⟩ := decodeTemplated_imap mounts m
  have hname : lookupKey sub "name" = some .vnil := by
    rw [hpres "name" (by decide)]
    exact hmn
  have hcond : ((lookupKey sub "name").isNone && !configNeedsNoName seType opt) = false := by
    rw [hname]
    simp
  constructor
  · intro p2 o2 hcontra
    obtain ⟨c, e0, hwrap⟩ := processItem_errors_wrapped env mounts seType sePath mE opt
      (.imap m) cache sub hdec hcond _ hcontra
    simp at hwrap
  · intro q hq
    simp only [writeConfigPathsOf, List.mem_filterMap] at hq
    obtain ⟨e, he, hf⟩ := hq
    rcases processItem_mem env mounts seType sePath mE opt (.imap m) cache sub hdec e he with
      h | ⟨kv, h, _, _⟩ | ⟨x, h⟩ | ⟨x, h⟩ | ⟨x, r, h⟩ | ⟨x, h⟩ | ⟨x, h⟩
    · subst h
      simp at hf
      rw [← hf, hname]
      rfl
    all_goals subst h
    all_goals simp at hf

/-- Witness for claim C10 at a concrete nil-named item under the
non-exempt pki/roles pair: no missing-name error, and the config write
targets the nameless path. -/
theorem c10_nil_name_processed_without_name_witness :
    (∀ p2 o2, (processItem envNotFound [] "pki" "pki" false "roles"
        (.imap [("name", .vnil), ("x", .vstr "1")]) []).2.1
      ≠ .error (.nameMissing p2 o2))
    ∧ "pki/roles" = "pki" ++ "/" ++ "roles" := by
  constructor
  · exact (c10_nil_name_processed_without_name envNotFound [] "pki" "pki" false "roles"
      [("name", .vnil), ("x", .vstr "1")] [] rfl).1
  · have ht : writeConfigPathsOf (processItem envNotFound [] "pki" "pki" false "roles"
        (.imap [("name", .vnil), ("x", .vstr "1")]) []).1 = ["pki/roles"] := rfl
    exact (c10_nil_name_processed_without_name envNotFound [] "pki" "pki" false "roles"
      [("name", .vnil), ("x", .vstr "1")] [] rfl).2 "pki/roles" (ht ▸ List.Mem.head _)

/-! ## Claim C1 -/

theorem writeConfigPathsOf_append (a b : List Effect) :
    writeConfigPathsOf (a ++ b) = writeConfigPathsOf a ++ writeConfigPathsOf b := by
  simp [writeConfigPathsOf]

theorem writeSaveToPathsOf_append (a b : List Effect) :
    writeSaveToPathsOf (a ++ b) = writeSaveToPathsOf a ++ writeSaveToPathsOf b := by
  simp [writeSaveToPathsOf]

theorem probePathsOf_append (a b : List Effect) :
    probePathsOf (a ++ b) = probePathsOf a ++ probePathsOf b := by
  simp [probePathsOf]

theorem skipLogsOf_append (a b : List Effect) :
    skipLogsOf (a ++ b) = skipLogsOf a ++ skipLogsOf b := by
  simp [skipLogsOf]

/-- The probe emits no writes. -/
theorem probe_trace_no_writes (env : Env) (p o cp : String) :
    writeConfigPathsOf (probeSecretExists env p o cp).1 = []
    ∧ writeSaveToPathsOf (probeSecretExists env p o cp).1 = [] := by
  rcases probeSecretExists_trace env p o cp with ht | ht <;> rw [ht] <;> exact ⟨rfl, rfl⟩

/-- The rotation phase trace is the rotation coordinator trace or empty. -/
theorem rotatePhase_trace (env : Env) (rot mE : Bool) (ty p o : String)
    (name : GoVal) (cp : String) (cache : List String) :
    (rotatePhase env rot mE ty p o name cp cache).1
      = (rotateSecretEngineCredentials env cache ty p (nameStrOf name) cp).1
    ∨ (rotatePhase env rot mE ty p o name cp cache).1 = [] := by
  unfold rotatePhase
  split
  · split
    · exact .inl rfl
    · exact .inl rfl
  · exact .inr rfl

/-- The rotation phase emits no config writes, save_to writes, probes or
skip logs. -/
theorem rotatePhase_no_writes (env : Env) (rot mE : Bool) (ty p o : String)
    (name : GoVal) (cp : String) (cache : List String) :
    writeConfigPathsOf (rotatePhase env rot mE ty p o name cp cache).1 = []
    ∧ writeSaveToPathsOf (rotatePhase env rot mE ty p o name cp cache).1 = []
    ∧ probePathsOf (rotatePhase env rot mE ty p o name cp cache).1 = [] := by
  rcases rotatePhase_trace env rot mE ty p o name cp cache with ht | ht
  · rw [ht]
    rcases rotateCreds_trace env cache ty p (nameStrOf name) cp with h | ⟨q, h⟩ | ⟨q, h⟩ <;>
      rw [h] <;> exact ⟨rfl, rfl, rfl⟩
  · rw [ht]
    exact ⟨rfl, rfl, rfl⟩

/-- The write phase emits no probes and no skip logs. -/
theorem writePhase_no_probes (env : Env) (su : Bool) (cp st : String) (pay : GoMap) :
    probePathsOf (writePhase env su cp st pay).1 = []
    ∧ skipLogsOf (writePhase env su cp st pay).1 = [] := by
  unfold writePhase
  split
  · split
    · split <;> exact ⟨rfl, rfl⟩
    · split
      · split <;> exact ⟨rfl, rfl⟩
      · exact ⟨rfl, rfl⟩
  · exact ⟨rfl, rfl⟩

/-- Claim C1: for an item with create_only or rotate set, under a
pre-existing mount and a probe that finds the target populated, no config
write and no save_to write happen and the skip is logged at the config
path with reason create_only when create_only is set, else rotate; for a
freshly created mount the probe is skipped entirely (no probe effect) and
exactly one config write proceeds at the config path. -/
theorem c1_create_only_rotate_skip :
    (∀ env mounts seType sePath opt raw (cache : List String) sub,
      decodeTemplated mounts raw = .ok sub →
      ((lookupKey sub "name").isNone && !configNeedsNoName seType opt) = false →
      ((stripControl (normalizeMap sub)).2.1 || (stripControl (normalizeMap sub)).2.2.1)
        = true →
      (probeSecretExists env sePath opt
          (configPathOf sePath opt ((lookupKey sub "name").getD .vnil))).2 = .ok true →
      writeConfigPathsOf (processItem env mounts seType sePath true opt raw cache).1 = []
      ∧ writeSaveToPathsOf (processItem env mounts seType sePath true opt raw cache).1 = []
      ∧ (configPathOf sePath opt ((lookupKey sub "name").getD .vnil),
          if (stripControl (normalizeMap sub)).2.1 then "create_only" else "rotate")
        ∈ skipLogsOf (processItem env mounts seType sePath true opt raw cache).1)
    ∧ (∀ env mounts seType sePath opt raw (cache : List String) sub,
      decodeTemplated mounts raw = .ok sub →
      ((lookupKey sub "name").isNone && !configNeedsNoName seType opt) = false →
      ((stripControl (normalizeMap sub)).2.1 || (stripControl (normalizeMap sub)).2.2.1)
        = true →
      probePathsOf (processItem env mounts seType sePath false opt raw cache).1 = []
      ∧ writeConfigPathsOf (processItem env mounts seType sePath false opt raw cache).1
        = [configPathOf sePath opt ((lookupKey sub "name").getD .vnil)]) := by
  constructor
  · intro env mounts seType sePath opt raw cache sub hdec hcond hflag hprobe
    have hps := probePhase_skip env (stripControl (normalizeMap sub)).2.1
      (stripControl (normalizeMap sub)).2.2.1 sePath opt
      (configPathOf sePath opt ((lookupKey sub "name").getD .vnil)) hflag hprobe
    simp only [processItem, hdec, hcond, Bool.false_eq_true, if_false, hps,
      writePhase_skip]
    have h1 := probe_trace_no_writes env sePath opt
      (configPathOf sePath opt ((lookupKey sub "name").getD .vnil))
    have h2 := rotatePhase_no_writes env (stripControl (normalizeMap sub)).2.2.1 true
      seType sePath opt ((lookupKey sub "name").getD .vnil)
      (configPathOf sePath opt ((lookupKey sub "name").getD .vnil)) cache
    refine ⟨?_, ?_, ?_⟩
    · simp only [writeConfigPathsOf_append, h1.1, h2.1]
      rfl
    · simp only [writeSaveToPathsOf_append, h1.2, h2.2.1]
      rfl
    · simp only [skipLogsOf_append]
      refine List.mem_append.mpr (.inl (List.mem_append.mpr
        (.inl (List.mem_append.mpr (.inr ?_)))))
      exact List.mem_singleton.mpr rfl
  · intro env mounts seType sePath opt raw cache sub hdec hcond hflag
    simp only [processItem, hdec, hcond, Bool.false_eq_true, if_false,
      probePhase_fresh, rotatePhase_fresh]
    cases hw : (writePhase env true
        (configPathOf sePath opt ((lookupKey sub "name").getD .vnil))
        (stripControl (normalizeMap sub)).2.2.2
        (stripControl (normalizeMap sub)).1).2 with
    | proceeded =>
      refine ⟨?_, ?_⟩
      · simp only [probePathsOf_append, (writePhase_no_probes env true _ _ _).1]
        rfl
      · simp only [writeConfigPathsOf_append, writePhase_config_paths]
        rfl
    | skippedConflict =>
      refine ⟨?_, ?_⟩
      · simp only [probePathsOf_append, (writePhase_no_probes env true _ _ _).1]
        rfl
      · simp only [writeConfigPathsOf_append, writePhase_config_paths]
        rfl
    | failed e0 =>
      refine ⟨?_, ?_⟩
      · simp only [probePathsOf_append, (writePhase_no_probes env true _ _ _).1]
        rfl
      · simp only [writeConfigPathsOf_append, writePhase_config_paths]
        rfl

/-- Witness for claim C1 at a concrete create_only item: with the mount
pre-existing and the probe finding data, no config or save_to write and
the skip logged with reason create_only; with the mount freshly created,
no probe and exactly the one config write. -/
theorem c1_create_only_rotate_skip_witness :
    (writeConfigPathsOf
        (processItem envAllOk [] "database" "db" true "roles" demoItemCreateOnly []).1 = []
      ∧ writeSaveToPathsOf
        (processItem envAllOk [] "database" "db" true "roles" demoItemCreateOnly []).1 = []
      ∧ ("db/roles/role1", "create_only") ∈ skipLogsOf
        (processItem envAllOk [] "database" "db" true "roles" demoItemCreateOnly []).1)
    ∧ (probePathsOf
        (processItem envAllOk [] "database" "db" false "roles" demoItemCreateOnly []).1 = []
      ∧ writeConfigPathsOf
        (processItem envAllOk [] "database" "db" false "roles" demoItemCreateOnly []).1
        = ["db/roles/role1"]) := by
  constructor
  · exact c1_create_only_rotate_skip.1 envAllOk [] "database" "db" "roles"
      demoItemCreateOnly []
      [("name", .vstr "role1"), ("create_only", .vbool true), ("x", .vstr "1"),
       ("allowed_domains", .vstrList [])] rfl rfl rfl rfl
  · exact c1_create_only_rotate_skip.2 envAllOk [] "database" "db" "roles"
      demoItemCreateOnly []
      [("name", .vstr "role1"), ("create_only", .vbool true), ("x", .vstr "1"),
       ("allowed_domains", .vstrList [])] rfl rfl rfl
